import Mathlib

/-!
Shallow embedding of the SqliteNetworkController of this repository
(network-config request engine and the admin HTTP control plane), with
theorems checking the natural-language specification against the code.

Database tables are modelled as Lean lists in rowid (insertion) order;
16-byte IP blobs are modelled as the natural number they encode (IPv4
blobs are twelve zero bytes followed by the big-endian address, so the
numeric value and SQLite's memcmp blob order coincide with Nat order);
the identity, address and COM cryptographic primitives, which the spec
lists as external collaborators, are modelled as opaque value types with
the contract the spec gives them.
-/

namespace ZTC

/-! ### Hex and decimal string helpers (Utils::snprintf "%llx" forms, Utils::hexStrToU64) -/

def hexDigitChar (n : Nat) : Char :=
  if n < 10 then Char.ofNat (48 + n) else Char.ofNat (87 + n)

def natToHexAux : Nat → Nat → List Char → List Char
  | 0, _, acc => acc
  | fuel+1, n, acc =>
      if n == 0 then acc
      else natToHexAux fuel (n / 16) (hexDigitChar (n % 16) :: acc)

/-- Lowercase hex rendering of a natural number, no padding (C "%llx"). -/
def natToHex (n : Nat) : String :=
  if n == 0 then "0" else String.mk (natToHexAux n n [])

/-- Lowercase hex rendering padded with zeros to a minimum width
(C "%.16llx" and friends: a minimum digit count, never truncation). -/
def natToHexPad (w n : Nat) : String :=
  let s := natToHex n
  if s.length < w then String.mk (List.replicate (w - s.length) '0') ++ s else s

def hexVal (c : Char) : Option Nat :=
  if '0' ≤ c ∧ c ≤ '9' then some (c.toNat - 48)
  else if 'a' ≤ c ∧ c ≤ 'f' then some (c.toNat - 87)
  else if 'A' ≤ c ∧ c ≤ 'F' then some (c.toNat - 55)
  else none

def hexToNatAux : List Char → Nat → Nat
  | [], acc => acc
  | c :: rest, acc =>
      match hexVal c with
      | some v => hexToNatAux rest ((acc * 16 + v) % 2 ^ 64)
      | none => acc

/-- Modelled from the spec: Utils::hexStrToU64 (the source of this helper is
not under src/) parses leading hexadecimal digits into a 64-bit value,
stopping at the first non-hex character. -/
def hexToNat (s : String) : Nat :=
  hexToNatAux s.data 0

def decVal (c : Char) : Option Nat :=
  if '0' ≤ c ∧ c ≤ '9' then some (c.toNat - 48) else none

def decToNatAux : List Char → Nat → Option Nat
  | [], acc => some acc
  | c :: rest, acc =>
      match decVal c with
      | some v => decToNatAux rest (acc * 10 + v)
      | none => none

/-- Parse a nonempty all-decimal string. -/
def decToNat : String → Option Nat
  | s => if s.length == 0 then none else decToNatAux s.data 0

/-! ### InetAddress model

The InetAddress class is an external collaborator (its source is not under
src/). Modelled from the spec: textual IPv4 forms "a.b.c.d" with an
optional "/n" suffix parse to family 4; the port field doubles as the
netmask-bit count and the gateway metric; an unparseable string yields the
nil address (family 0). IPv6 textual parsing is not modelled: the claims
are settled on IPv4 inputs, and every definition below treats the parser
as one shared opaque function. -/

structure InetAddr where
  fam : Nat
  addr : Nat
  bits : Nat
  deriving DecidableEq, Repr

def InetAddr.nil : InetAddr := ⟨0, 0, 0⟩

def parseV4Bytes (parts : List String) : Option Nat :=
  match parts with
  | [a, b, c, d] =>
      match decToNat a, decToNat b, decToNat c, decToNat d with
      | some x, some y, some z, some w =>
          if x ≤ 255 ∧ y ≤ 255 ∧ z ≤ 255 ∧ w ≤ 255 then
            some (((x * 256 + y) * 256 + z) * 256 + w)
          else none
      | _, _, _, _ => none
  | _ => none

/-- Total InetAddress constructor model: nil on parse failure. -/
def inetParseT (s : String) : InetAddr :=
  match s.splitOn "/" with
  | [ip] =>
      match parseV4Bytes (ip.splitOn ".") with
      | some v => ⟨4, v, 0⟩
      | none => InetAddr.nil
  | [ip, b] =>
      match parseV4Bytes (ip.splitOn "."), decToNat b with
      | some v, some n => ⟨4, v, n⟩
      | _, _ => InetAddr.nil
  | _ => InetAddr.nil

/-- Option-valued view of the parser: none exactly when the address is nil
(the C++ truthiness test). -/
def inetParse (s : String) : Option InetAddr :=
  let a := inetParseT s
  if a.fam == 0 then none else some a

def v4Dots (n : Nat) : String :=
  toString (n / 2 ^ 24 % 256) ++ "." ++ toString (n / 2 ^ 16 % 256) ++ "." ++
    toString (n / 2 ^ 8 % 256) ++ "." ++ toString (n % 256)

/-- InetAddress::toString model: "ip/port"; the nil address renders empty. -/
def inetToString (a : InetAddr) : String :=
  if a.fam == 0 then "" else v4Dots a.addr ++ "/" ++ toString a.bits

/-- Modelled from the spec: InetAddressToBlob stores IPv4 addresses as a
16-byte blob of twelve zero bytes followed by the big-endian address, so
the blob is determined by (and here identified with) its numeric value. -/
def inetToBlob (a : InetAddr) : Nat := a.addr

/-- Modelled from the spec: BlobToInetAddress reads the last four bytes of
the 16-byte blob for IPv4 (all sixteen for IPv6). -/
def blobToInet (blob : Nat) (bits : Nat) (ver : Nat) : InetAddr :=
  if ver == 6 then ⟨6, blob % 2 ^ 128, bits⟩ else ⟨4, blob % 2 ^ 32, bits⟩

/-! ### Identities and certificates (opaque crypto adapters per the spec) -/

/-- Public identity material: the 40-bit address plus opaque key material. -/
structure PubId where
  addr : Nat
  key : Nat
  deriving DecidableEq, Repr

/-- An identity value; comparison of identities compares the public part. -/
structure Identity where
  pub : PubId
  hasPriv : Bool
  deriving DecidableEq, Repr

/-- Modelled from the spec: the COM revision max-delta constant from
CertificateOfMembership.hpp (not under src/); its value is opaque to every
claim. -/
def comMaxDelta : Nat := 16

/-- Certificate of Membership parameters as constructed by the config
request engine: (network revision, max delta, network id, issued-to
address), signed by the signer. -/
structure Com where
  revision : Nat
  maxDelta : Nat
  nwid : Nat
  issuedTo : Nat
  signedBy : Nat
  deriving DecidableEq, Repr

/-- Modelled from the spec: the serialized COM string; an injective
rendering of the COM parameters and signer. -/
def comToString (c : Com) : String :=
  "COM:" ++ natToHexPad 16 c.revision ++ ":" ++ natToHexPad 16 c.maxDelta ++ ":" ++
    natToHexPad 16 c.nwid ++ ":" ++ natToHexPad 10 c.issuedTo ++ ":" ++ natToHexPad 10 c.signedBy

/-! ### Dictionary (ZeroTier Dictionary: an ordered key/value map) -/

abbrev Dict := List (String × String)

def dictSet (d : Dict) (k v : String) : Dict :=
  match d with
  | [] => [(k, v)]
  | (k', v') :: rest => if k == k' then (k, v) :: rest else (k', v') :: dictSet rest k v

def dictGet (d : Dict) (k : String) : Option String :=
  (d.find? (fun kv => kv.1 == k)).map (fun kv => kv.2)

/-- Modelled from the spec: these are the network-config dictionary wire
keys of spec section 4.3 (the key constants live in NetworkConfig.hpp,
which is not under src/). -/
def kTs : String := "ts"
def kR : String := "r"
def kNwid : String := "nwid"
def kId : String := "id"
def kP : String := "p"
def kN : String := "n"
def kEb : String := "eb"
def kPb : String := "pb"
def kEt : String := "et"
def kMl : String := "ml"
def kAb : String := "ab"
def kRl : String := "rl"
def kGw : String := "gw"
def kV4s : String := "v4s"
def kCom : String := "com"
def kSig : String := "~!ed25519"

/-- Modelled from the spec: Dictionary::sign appends a signature entry
computed from the signer and timestamp. -/
def dictSign (d : Dict) (signer : Identity) (now : Nat) : Dict :=
  dictSet d kSig (natToHexPad 16 now ++ ":" ++ natToHexPad 10 signer.pub.addr)

/-! ### Relational rows and the store -/

structure NodeRow where
  id : Nat
  identity : Option PubId
  lastAt : String
  lastSeen : Nat
  firstSeen : Nat
  deriving DecidableEq, Repr

structure NetworkRow where
  id : Nat
  name : String
  isPrivate : Bool
  enableBroadcast : Bool
  allowPassiveBridging : Bool
  v4AssignMode : String
  v6AssignMode : String
  multicastLimit : Int
  creationTime : Nat
  revision : Nat
  deriving DecidableEq, Repr

structure MemberRow where
  networkId : Nat
  nodeId : Nat
  authorized : Bool
  activeBridge : Bool
  deriving DecidableEq, Repr

structure IpAssignmentRow where
  routeIp : Option Nat
  networkId : Nat
  nodeId : Nat
  ip : Nat
  ipNetmaskBits : Nat
  ipVersion : Nat
  deriving DecidableEq, Repr

structure PoolRow where
  networkId : Nat
  routeIp : Nat
  ipFirst : Nat
  ipLast : Nat
  deriving DecidableEq, Repr

structure RouteRow where
  networkId : Nat
  nodeId : Option String
  ip : Nat
  ipNetmaskBits : Nat
  ipVersion : Nat
  deriving DecidableEq, Repr

/-- The Relay nodeId column holds the 10-hex rendering of the 40-bit
address; rendering is injective below 2^40, so the row is modelled with
the numeric address. -/
structure RelayRow where
  networkId : Nat
  nodeId : Nat
  phyAddress : String
  deriving DecidableEq, Repr

structure GatewayRow where
  networkId : Nat
  ip : Nat
  ipVersion : Nat
  metric : Nat
  deriving DecidableEq, Repr

structure RuleRow where
  networkId : Nat
  ruleNo : Int
  nodeId : Option String
  vlanId : Option Int
  vlanPcp : Option Int
  etherType : Option Int
  macSource : Option String
  macDest : Option String
  ipSource : Option String
  ipDest : Option String
  ipTos : Option Int
  ipProtocol : Option Int
  ipSourcePort : Option Int
  ipDestPort : Option Int
  action : Option String
  deriving DecidableEq, Repr

structure St where
  nodes : List NodeRow
  networks : List NetworkRow
  members : List MemberRow
  ipAssignments : List IpAssignmentRow
  pools : List PoolRow
  routes : List RouteRow
  relays : List RelayRow
  gateways : List GatewayRow
  rules : List RuleRow
  deriving DecidableEq, Repr

def findNode (st : St) (id : Nat) : Option NodeRow :=
  st.nodes.find? (fun n => n.id == id)

def findNetwork (st : St) (id : Nat) : Option NetworkRow :=
  st.networks.find? (fun n => n.id == id)

def findMember (st : St) (nwid nodeId : Nat) : Option MemberRow :=
  st.members.find? (fun m => m.networkId == nwid && m.nodeId == nodeId)

/-! ### Small list utilities (std::sort / std::unique / ORDER BY models) -/

def insertLe (le : α → α → Bool) (x : α) : List α → List α
  | [] => [x]
  | y :: ys => if le x y then x :: y :: ys else y :: insertLe le x ys

/-- Stable insertion sort; with a non-strict comparison this keeps equal
elements in their original (rowid) order. -/
def sortByLe (le : α → α → Bool) (xs : List α) : List α :=
  xs.foldr (insertLe le) []

def dedupAdj : List Nat → List Nat
  | [] => []
  | [x] => [x]
  | x :: y :: rest => if x == y then dedupAdj (y :: rest) else x :: dedupAdj (y :: rest)

/-! ### Config-request engine: SqliteNetworkController::doNetworkConfigRequest -/

inductive ResultCode
  | OK
  | OK_BUT_NOT_NEWER
  | OBJECT_NOT_FOUND
  | ACCESS_DENIED
  | INTERNAL_SERVER_ERROR
  deriving DecidableEq, Repr

/-- The inputs of one config request. The two Bool fields model the opaque
outcomes of CertificateOfMembership::sign and Dictionary::sign, which the
spec treats as external cryptographic operations. -/
structure NetRequest where
  fromAddr : Option String
  signingId : Identity
  identity : Identity
  nwid : Nat
  haveRevision : Nat
  now : Nat
  comSignOk : Bool
  dictSignOk : Bool
  deriving DecidableEq, Repr

/-- The lastSeen/lastAt touch applied to the requester's Node row when the
stored identity matches (lastAt only when the request carries a peer
address). -/
def nodeTouch (req : NetRequest) (n : NodeRow) : NodeRow :=
  if n.id == req.identity.pub.addr then
    match req.fromAddr with
    | some fa => { n with lastAt := fa, lastSeen := req.now }
    | none => { n with lastSeen := req.now }
  else n

/-- Identity binding: first-come-first-claim on the Node table; none means
ACCESS_DENIED (stored identity differs or fails to deserialize). -/
def nodePhase (req : NetRequest) (st : St) : Option St :=
  match findNode st req.identity.pub.addr with
  | some n =>
      match n.identity with
      | some pid =>
          if pid == req.identity.pub then
            some { st with nodes := st.nodes.map (nodeTouch req) }
          else none
      | none => none
  | none =>
      some { st with nodes := st.nodes ++
        [⟨req.identity.pub.addr, some req.identity.pub, req.fromAddr.getD "", req.now, req.now⟩] }

/-- The allowed-ether-type CSV: accept-action rules' etherType values
(NULL reads as 0), filtered to 0..0xffff, sorted, deduplicated, 4-hex. -/
def etCsv (st : St) (nwid : Nat) : String :=
  let ets := (st.rules.filter (fun r => r.networkId == nwid && r.action == some "accept")).map
      (fun r => r.etherType.getD 0)
  let ets := ets.filter (fun et => decide (0 ≤ et) && decide (et ≤ 0xffff))
  let ets := dedupAdj (sortByLe (fun a b => decide (a ≤ b)) (ets.map Int.toNat))
  String.intercalate "," (ets.map (fun e => natToHexPad 4 e))

def abGo : List MemberRow → String → String
  | [], acc => acc
  | m :: rest, acc =>
      let s := natToHexPad 10 m.nodeId
      let acc := if s.length == 10 then (if acc.length > 0 then acc ++ "," ++ s else s) else acc
      if acc.length > 1024 then acc else abGo rest acc

/-- Active-bridge CSV: authorized active-bridge member ids, 10-hex entries
only, capped at just over 1024 characters. -/
def abCsv (st : St) (nwid : Nat) : String :=
  abGo (st.members.filter (fun m => m.networkId == nwid && m.activeBridge && m.authorized)) ""

def rlGo : List RelayRow → String → String
  | [], acc => acc
  | r :: rest, acc =>
      let node := r.nodeId % 2 ^ 40
      let a := inetParseT r.phyAddress
      let acc :=
        if node != 0 && a.fam != 0 then
          (if acc.length > 0 then acc ++ "," else acc) ++ natToHexPad 10 node ++ ";" ++ inetToString a
        else acc
      rlGo rest acc

/-- Relay CSV: "nodeId;phyAddress" entries in nodeId order, skipping rows
whose node address is zero or whose physical address does not parse. -/
def rlCsv (st : St) (nwid : Nat) : String :=
  rlGo (sortByLe (fun a b => decide (a.nodeId ≤ b.nodeId))
    (st.relays.filter (fun r => r.networkId == nwid))) ""

/-- Byte i (big-endian, 0-based) of a 16-byte blob value. -/
def byteAt (blob i : Nat) : Nat := blob / 2 ^ (8 * (15 - i)) % 256

def v6Groups (b : Nat) : String :=
  String.intercalate ":" ((List.range 8).map
    (fun g => natToHexPad 2 (byteAt b (2 * g)) ++ natToHexPad 2 (byteAt b (2 * g + 1))))

def gwGo : List GatewayRow → String → String
  | [], acc => acc
  | g :: rest, acc =>
      let s :=
        if g.ipVersion == 4 then
          (if acc.length > 0 then "," else "") ++
            toString (byteAt g.ip 0) ++ "." ++ toString (byteAt g.ip 1) ++ "." ++
            toString (byteAt g.ip 2) ++ "." ++ toString (byteAt g.ip 3) ++ "/" ++ toString g.metric
        else if g.ipVersion == 6 then
          (if acc.length > 0 then "," else "") ++ v6Groups g.ip ++ "/" ++ toString g.metric
        else ""
      gwGo rest (acc ++ s)

/-- Gateway CSV in ascending metric order. As in the source, the IPv4 arm
formats the first four bytes of the 16-byte blob. -/
def gwCsv (st : St) (nwid : Nat) : String :=
  gwGo (sortByLe (fun a b => decide (a.metric ≤ b.metric))
    (st.gateways.filter (fun g => g.networkId == nwid))) ""

def v4sGo : List IpAssignmentRow → String → String
  | [], acc => acc
  | a :: rest, acc =>
      let acc :=
        if decide (0 < a.ipNetmaskBits) && decide (a.ipNetmaskBits ≤ 32) then
          (if acc.length > 0 then acc ++ "," else acc) ++
            v4Dots (a.ip % 2 ^ 32) ++ "/" ++ toString a.ipNetmaskBits
        else acc
      v4sGo rest acc

/-- The CSV of the member's existing IPv4 assignments. -/
def v4sExisting (st : St) (nwid nodeId : Nat) : String :=
  v4sGo (st.ipAssignments.filter
    (fun a => a.networkId == nwid && a.nodeId == nodeId && a.ipVersion == 4)) ""

/-! ### IPv4 auto-allocator -/

def isAllocated (st : St) (nwid ip : Nat) : Bool :=
  st.ipAssignments.any (fun a => a.networkId == nwid && a.ip == ip && a.ipVersion == 4)

/-- The routeIp scalar subselect of the IpAssignment INSERT: the first pool
of the network whose [ipFirst, ipLast] blob range contains the ip. -/
def allocRouteIp (st : St) (nwid ip : Nat) : Option Nat :=
  (st.pools.find? (fun p =>
    p.networkId == nwid && decide (p.ipFirst ≤ ip) && decide (ip ≤ p.ipLast))).map
    (fun p => p.routeIp)

/-- Scan a candidate list in order; reserve the first ip with no existing
(networkId, ip, 4) IpAssignment row. -/
def allocTryRange (st : St) (nwid nodeId bits : Nat) : List Nat → Option (Nat × St)
  | [] => none
  | ip :: rest =>
      if isAllocated st nwid ip then allocTryRange st nwid nodeId bits rest
      else
        some (ip, { st with ipAssignments := st.ipAssignments ++
          [⟨allocRouteIp st nwid ip, nwid, nodeId, ip, bits, 4⟩] })

/-- Rows of the pool query: IpAssignmentPool joined with Route on
route.ip = pool.routeIp, route.ipVersion = 4, pool.networkId = nwid. -/
def poolJoinRows (st : St) (nwid : Nat) : List (PoolRow × RouteRow) :=
  (st.pools.filter (fun p => p.networkId == nwid)).foldr
    (fun p acc =>
      ((st.routes.filter (fun r => r.ip == p.routeIp && r.ipVersion == 4)).map
        (fun r => (p, r))) ++ acc) []

/-- The pool scan as the source performs it: both loop bounds are read from
the ipFirst column of the pool row, so each pool contributes exactly one
candidate address. -/
def autoAllocGo (st : St) (nwid nodeId : Nat) : List (PoolRow × RouteRow) → Option (Nat × Nat × St)
  | [] => none
  | (p, r) :: rest =>
      let ipFirst := blobToInet p.ipFirst 32 4
      let ipLast := blobToInet p.ipFirst 32 4
      let bits := r.ipNetmaskBits
      if ipFirst.fam != 0 && ipLast.fam != 0 && decide (0 < bits) && decide (bits < 32) then
        match allocTryRange st nwid nodeId bits
            (List.range' ipFirst.addr (ipLast.addr + 1 - ipFirst.addr)) with
        | some (ip, st') => some (ip, bits, st')
        | none => autoAllocGo st nwid nodeId rest
      else autoAllocGo st nwid nodeId rest

def autoAllocV4 (st : St) (nwid nodeId : Nat) : Option (Nat × Nat × St) :=
  autoAllocGo st nwid nodeId (poolJoinRows st nwid)

/-- Modelled from the spec: the intended pool scan iterates candidates from
ipFirst to ipLast as distinct bounds (the source binds both bounds from
the ipFirst column; the spec describes distinct bounds). -/
def autoAllocIntendedGo (st : St) (nwid nodeId : Nat) :
    List (PoolRow × RouteRow) → Option (Nat × Nat × St)
  | [] => none
  | (p, r) :: rest =>
      let ipFirst := blobToInet p.ipFirst 32 4
      let ipLast := blobToInet p.ipLast 32 4
      let bits := r.ipNetmaskBits
      if ipFirst.fam != 0 && ipLast.fam != 0 && decide (0 < bits) && decide (bits < 32) then
        match allocTryRange st nwid nodeId bits
            (List.range' ipFirst.addr (ipLast.addr + 1 - ipFirst.addr)) with
        | some (ip, st') => some (ip, bits, st')
        | none => autoAllocIntendedGo st nwid nodeId rest
      else autoAllocIntendedGo st nwid nodeId rest

def autoAllocV4Intended (st : St) (nwid nodeId : Nat) : Option (Nat × Nat × St) :=
  autoAllocIntendedGo st nwid nodeId (poolJoinRows st nwid)

/-! ### Payload assembly and signing -/

/-- The dictionary as assembled before the v4s / com / signature steps. -/
def coreDict (req : NetRequest) (st : St) (network : NetworkRow) (nodeId : Nat) : Dict :=
  let d := dictSet [] kTs (natToHexPad 16 req.now)
  let d := dictSet d kR (natToHexPad 16 network.revision)
  let d := dictSet d kNwid (natToHexPad 16 req.nwid)
  let d := dictSet d kId (natToHexPad 10 nodeId)
  let d := dictSet d kP (if network.isPrivate then "1" else "0")
  let d := dictSet d kN network.name
  let d := dictSet d kEb (if network.enableBroadcast then "1" else "0")
  let d := dictSet d kPb (if network.allowPassiveBridging then "1" else "0")
  let d := dictSet d kEt (etCsv st req.nwid)
  let d := if network.multicastLimit > 0 then dictSet d kMl (natToHex network.multicastLimit.toNat) else d
  let ab := abCsv st req.nwid
  let d := if ab.length > 0 then dictSet d kAb ab else d
  let rl := rlCsv st req.nwid
  let d := if rl.length > 0 then dictSet d kRl rl else d
  let gw := gwCsv st req.nwid
  let d := if gw.length > 0 then dictSet d kGw gw else d
  d

/-- The v4s string and the store after optional auto-allocation: existing
assignments win; otherwise the pool scan may reserve one address. -/
def v4Step (req : NetRequest) (st : St) (network : NetworkRow) (nodeId : Nat) : String × St :=
  if network.v4AssignMode == "zt" then
    if (v4sExisting st req.nwid nodeId).length == 0 then
      match autoAllocV4 st req.nwid nodeId with
      | some (ip, bits, st') => (v4Dots ip ++ "/" ++ toString bits, st')
      | none => ("", st)
    else (v4sExisting st req.nwid nodeId, st)
  else ("", st)

def comOf (req : NetRequest) (network : NetworkRow) (nodeId : Nat) : Com :=
  ⟨network.revision, comMaxDelta, req.nwid, nodeId, req.signingId.pub.addr⟩

def finishSign (req : NetRequest) (st : St) (d : Dict) : ResultCode × Dict × St :=
  if req.dictSignOk then (.OK, dictSign d req.signingId req.now, st)
  else (.INTERNAL_SERVER_ERROR, dictSet d "error" "unable to sign netconf dictionary", st)

/-- The dictionary after the optional v4s entry: the key is set only inside
the "zt" branch and only when the string is nonempty. -/
def v4sDict (req : NetRequest) (st : St) (network : NetworkRow) (nodeId : Nat) : Dict :=
  if network.v4AssignMode == "zt" && (v4Step req st network nodeId).1.length > 0 then
    dictSet (coreDict req st network nodeId) kV4s (v4Step req st network nodeId).1
  else coreDict req st network nodeId

def buildAndSign (req : NetRequest) (st : St) (network : NetworkRow) (mem : MemberRow) :
    ResultCode × Dict × St :=
  if network.isPrivate then
    if req.comSignOk then
      finishSign req (v4Step req st network mem.nodeId).2
        (dictSet (v4sDict req st network mem.nodeId) kCom (comToString (comOf req network mem.nodeId)))
    else (.INTERNAL_SERVER_ERROR, dictSet (v4sDict req st network mem.nodeId) "error" "unable to sign COM",
          (v4Step req st network mem.nodeId).2)
  else finishSign req (v4Step req st network mem.nodeId).2 (v4sDict req st network mem.nodeId)

/-- Everything up to and including the revision short-circuit; an error
value carries the early result and the store as already mutated (node
touch / node create / member create). -/
def configPrelude (req : NetRequest) (st : St) :
    Except (ResultCode × Dict × St) (St × NetworkRow × MemberRow) :=
  if !req.signingId.hasPriv then
    .error (.INTERNAL_SERVER_ERROR, [("error", "signing identity invalid or lacks private key")], st)
  else if req.signingId.pub.addr != req.nwid >>> 24 then
    .error (.INTERNAL_SERVER_ERROR,
      [("error", "signing identity address does not match most significant 40 bits of network ID")], st)
  else
    match nodePhase req st with
    | none => .error (.ACCESS_DENIED, [], st)
    | some st1 =>
        match findNetwork st1 req.nwid with
        | none => .error (.OBJECT_NOT_FOUND, [], st1)
        | some network =>
            let nodeId := req.identity.pub.addr
            let (member, st2) :=
              match findMember st1 req.nwid nodeId with
              | some m => (m, st1)
              | none =>
                  let m : MemberRow := ⟨req.nwid, nodeId, !network.isPrivate, false⟩
                  (m, { st1 with members := st1.members ++ [m] })
            if !member.authorized then .error (.ACCESS_DENIED, [], st2)
            else if decide (0 < req.haveRevision) && req.haveRevision == network.revision then
              .error (.OK_BUT_NOT_NEWER, [], st2)
            else .ok (st2, network, member)

def doNetworkConfigRequest (req : NetRequest) (st : St) : ResultCode × Dict × St :=
  match configPrelude req st with
  | .error r => r
  | .ok (st2, network, member) => buildAndSign req st2 network member

/-! ### Parsed JSON values (the json-parser library output) -/

inductive JVal
  | jstr (s : String)
  | jint (n : Int)
  | jbool (b : Bool)
  | jarr (xs : List JVal)
  | jobj (kvs : List (String × JVal))
  | jnull

/-- The last string-typed occurrence of a key in an object's field list
(the source's per-field assignment loop lets later occurrences win). -/
def lastStr (kvs : List (String × JVal)) (key : String) : Option String :=
  kvs.foldl (fun acc kv =>
    match kv.2 with
    | JVal.jstr s => if kv.1 == key then some s else acc
    | _ => acc) none

/-- The last integer-typed occurrence of a key in an object's field list. -/
def lastInt (kvs : List (String × JVal)) (key : String) : Option Int :=
  kvs.foldl (fun acc kv =>
    match kv.2 with
    | JVal.jint n => if kv.1 == key then some n else acc
    | _ => acc) none

/-! ### Admin control plane: POST /network/nwid/member/addr -/

/-- The member GET view (_doCPGet): 200 requires the Member row joined with
its Node row; the join yields nothing when the Node row is absent. -/
def memberViewStatus (st : St) (nwid addr : Nat) : Nat :=
  match findMember st nwid addr, findNode st addr with
  | some _, some _ => 200
  | _, _ => 404

def updateMember (st : St) (nwid addr : Nat) (f : MemberRow → MemberRow) : St :=
  { st with members := st.members.map (fun m =>
      if m.networkId == nwid && m.nodeId == addr then f m else m) }

def deleteIpAllocations (st : St) (nwid addr : Nat) : St :=
  { st with ipAssignments := st.ipAssignments.filter (fun a =>
      !(a.networkId == nwid && a.nodeId == addr)) }

/-- One ipAssignments list entry: parse the string; version 4 or 6 rows are
inserted (with the routeIp subselect), others are skipped. -/
def memberIpInsert (nwid addr : Nat) (st : St) (v : JVal) : St :=
  match v with
  | JVal.jstr s =>
      if (if (inetParseT s).fam == 4 then 4 else if (inetParseT s).fam == 6 then 6 else 0) > 0 then
        { st with ipAssignments := st.ipAssignments ++
          [⟨allocRouteIp st nwid (inetToBlob (inetParseT s)), nwid, addr, inetToBlob (inetParseT s),
            (inetParseT s).bits,
            (if (inetParseT s).fam == 4 then 4 else if (inetParseT s).fam == 6 then 6 else 0)⟩] }
      else st
  | _ => st

def memberFieldStep (nwid addr : Nat) (st : St) (kv : String × JVal) : St :=
  match kv with
  | ("authorized", JVal.jbool b) => updateMember st nwid addr (fun m => { m with authorized := b })
  | ("activeBridge", JVal.jbool b) => updateMember st nwid addr (fun m => { m with activeBridge := b })
  | ("ipAssignments", JVal.jarr xs) =>
      xs.foldl (memberIpInsert nwid addr) (deleteIpAllocations st nwid addr)
  | _ => st

/-- Member-row creation with authorized bound to 0 when the row is absent
(the third bind of _sCreateMember is the constant 0 on this path). -/
def memberEnsure (st : St) (nwid addr : Nat) : St :=
  match findMember st nwid addr with
  | some _ => st
  | none => { st with members := st.members ++ [⟨nwid, addr, false, false⟩] }

/-- The body of a member POST: an object's fields are applied in order;
any other (or unparseable) body does nothing. -/
def memberPostApply (st : St) (nwid addr : Nat) (body : Option JVal) : St :=
  match body with
  | some (JVal.jobj kvs) => kvs.foldl (memberFieldStep nwid addr) st
  | _ => st

/-- POST /network/nwid/member/addr: the network must exist; a missing
member row is created before the body is parsed; then the body's fields
are applied and the GET view is re-rendered. -/
def handleMemberPOST (st : St) (nwid addr : Nat) (body : Option JVal) : Nat × St :=
  match findNetwork st nwid with
  | none => (404, st)
  | some _ =>
      (memberViewStatus (memberPostApply (memberEnsure st nwid addr) nwid addr body) nwid addr,
       memberPostApply (memberEnsure st nwid addr) nwid addr body)

/-! ### Admin control plane: POST /network/nwid — collection handlers -/

def deleteRelaysFor (st : St) (nwid : Nat) : St :=
  { st with relays := st.relays.filter (fun r => !(r.networkId == nwid)) }

def deleteRoutesFor (st : St) (nwid : Nat) : St :=
  { st with routes := st.routes.filter (fun r => !(r.networkId == nwid)) }

def deleteGatewaysFor (st : St) (nwid : Nat) : St :=
  { st with gateways := st.gateways.filter (fun g => !(g.networkId == nwid)) }

def deletePoolsFor (st : St) (nwid : Nat) : St :=
  { st with pools := st.pools.filter (fun p => !(p.networkId == nwid)) }

def deleteRulesFor (st : St) (nwid : Nat) : St :=
  { st with rules := st.rules.filter (fun r => !(r.networkId == nwid)) }

/-- A posted relay object: both address and phyAddress strings must be
present; the address parses as a 40-bit hex id. -/
def relayItemParse (v : JVal) : Option (Nat × String) :=
  match v with
  | JVal.jobj kvs =>
      match lastStr kvs "address", lastStr kvs "phyAddress" with
      | some a, some p => some (hexToNat a % 2 ^ 40, p)
      | _, _ => none
  | _ => none

/-- Ordered-map insert keyed by node address (std::map assignment:
ascending keys, last value wins). -/
def assocSet (k : Nat) (v : String) : List (Nat × String) → List (Nat × String)
  | [] => [(k, v)]
  | (k', v') :: rest =>
      if k < k' then (k, v) :: (k', v') :: rest
      else if k == k' then (k, v) :: rest
      else (k', v') :: assocSet k v rest

def relayMapGo : List (Nat × String) → List JVal → List (Nat × String)
  | m, [] => m
  | m, it :: rest =>
      relayMapGo
        (match relayItemParse it with
         | some e => assocSet e.1 e.2 m
         | none => m) rest

def relayMapOf (items : List JVal) : List (Nat × String) :=
  relayMapGo [] items

/-- The phyAddress of the last entry in the posted array that parses and
carries the given node address (the value the std::map assignment leaves). -/
def relayLastPhy (a : Nat) : Option String → List JVal → Option String
  | acc, [] => acc
  | acc, it :: rest =>
      relayLastPhy a
        (match relayItemParse it with
         | some e => if e.1 == a then some e.2 else acc
         | none => acc) rest

def relayRowOf (nwid : Nat) (e : Nat × String) : RelayRow :=
  ⟨nwid, e.1, inetToString (inetParseT e.2)⟩

/-- relays handler: collect all posted entries into the address-keyed map,
then delete-all-for-network, then insert each map entry. -/
def relaysApply (st : St) (nwid : Nat) (items : List JVal) : St :=
  let m := relayMapOf items
  let st := deleteRelaysFor st nwid
  { st with relays := st.relays ++ m.map (relayRowOf nwid) }

/-- A posted route object: optional nodeId string, plus network/netmaskBits
which must parse into a family-4 address with bits below 32 (or family 6
below 128) to be collected. -/
def routeItemParse (v : JVal) : Option String × Option InetAddr :=
  match v with
  | JVal.jobj kvs =>
      let nodeId := lastStr kvs "nodeId"
      let r :=
        match lastStr kvs "network", lastInt kvs "netmaskBits" with
        | some net, some bits =>
            if bits > 0 then
              match inetParse (net ++ "/" ++ toString bits) with
              | some a =>
                  if (a.fam == 4 && decide (a.bits < 32)) || (a.fam == 6 && decide (a.bits < 128)) then
                    some a
                  else none
              | none => none
            else none
        | _, _ => none
      (nodeId, r)
  | _ => (none, none)

/-- std::set ordering for InetAddress: family, then address, then port. -/
def inetLt (a b : InetAddr) : Bool :=
  decide (a.fam < b.fam) ||
    (a.fam == b.fam && (decide (a.addr < b.addr) ||
      (a.addr == b.addr && decide (a.bits < b.bits))))

def setInsertInet (x : InetAddr) : List InetAddr → List InetAddr
  | [] => [x]
  | y :: ys =>
      if inetLt x y then x :: y :: ys
      else if x == y then y :: ys
      else y :: setInsertInet x ys

def routeRowOf (nwid : Nat) (nodeId : Option String) (a : InetAddr) : RouteRow :=
  ⟨nwid, nodeId, inetToBlob a, a.bits, if a.fam == 6 then 6 else 4⟩

/-- The set of collected routes after one more posted item. -/
def routeSetStep (rset : List InetAddr) (it : JVal) : List InetAddr :=
  match (routeItemParse it).2 with
  | some a => setInsertInet a rset
  | none => rset

/-- The nodeId string bound by the final iteration of the routes loop: the
one parsed from the last posted item. -/
def lastRouteNodeId (items : List JVal) : Option String :=
  match items.getLast? with
  | some it => (routeItemParse it).1
  | none => none

/-- routes handler as written in the source: the delete-for-network and the
insert loop over the accumulated set run inside the per-item loop, and the
inserts bind the current item's nodeId. -/
def routesGo (nwid : Nat) : St → List InetAddr → List JVal → St
  | st, _, [] => st
  | st, rset, it :: rest =>
      routesGo nwid
        { st with routes := st.routes.filter (fun rr => !(rr.networkId == nwid)) ++
            (routeSetStep rset it).map (routeRowOf nwid (routeItemParse it).1) }
        (routeSetStep rset it) rest

def routesApply (st : St) (nwid : Nat) (items : List JVal) : St :=
  routesGo nwid st [] items

/-- gateways handler: the delete-for-network runs before the body value is
even checked to be an array; valid entries are then inserted in order. -/
def gatewayRowOf (nwid : Nat) (a : InetAddr) : GatewayRow :=
  ⟨nwid, inetToBlob a, a.fam, a.bits⟩

def gatewayStep (nwid : Nat) (s : St) (it : JVal) : St :=
  match it with
  | JVal.jstr str =>
      if (inetParseT str).fam == 4 || (inetParseT str).fam == 6 then
        { s with gateways := s.gateways ++ [gatewayRowOf nwid (inetParseT str)] }
      else s
  | _ => s

/-- The gateway row a single posted array entry contributes, if any. -/
def gatewayItemRow (nwid : Nat) (it : JVal) : Option GatewayRow :=
  match it with
  | JVal.jstr str =>
      if (inetParseT str).fam == 4 || (inetParseT str).fam == 6 then
        some (gatewayRowOf nwid (inetParseT str))
      else none
  | _ => none

def gatewaysApply (st : St) (nwid : Nat) (v : JVal) : St :=
  match v with
  | JVal.jarr items => items.foldl (gatewayStep nwid) (deleteGatewaysFor st nwid)
  | _ => deleteGatewaysFor st nwid

/-- A posted pool object: network/ipFirst/ipLast strings each parsed with a
"/0" suffix; the triple is collected when all three share one family
(including the nil family when none of them parses). -/
def poolItemParse (v : JVal) : Option (InetAddr × InetAddr × InetAddr) :=
  match v with
  | JVal.jobj kvs =>
      match lastStr kvs "network", lastStr kvs "ipFirst", lastStr kvs "ipLast" with
      | some rte, some f, some l =>
          let v0 := inetParseT (rte ++ "/0")
          let v1 := inetParseT (f ++ "/0")
          let v2 := inetParseT (l ++ "/0")
          if v0.fam == v1.fam && v0.fam == v2.fam then some (v0, v1, v2) else none
      | _, _, _ => none
  | _ => none

def poolTripleLt (x y : InetAddr × InetAddr × InetAddr) : Bool :=
  inetLt x.1 y.1 ||
    (x.1 == y.1 && (inetLt x.2.1 y.2.1 || (x.2.1 == y.2.1 && inetLt x.2.2 y.2.2)))

def setInsertPool (x : InetAddr × InetAddr × InetAddr) :
    List (InetAddr × InetAddr × InetAddr) → List (InetAddr × InetAddr × InetAddr)
  | [] => [x]
  | y :: ys =>
      if poolTripleLt x y then x :: y :: ys
      else if x == y then y :: ys
      else y :: setInsertPool x ys

def poolRowOf (nwid : Nat) (t : InetAddr × InetAddr × InetAddr) : PoolRow :=
  ⟨nwid, inetToBlob t.1, inetToBlob t.2.1, inetToBlob t.2.2⟩

/-- The set of collected pool triples after one more posted item. -/
def poolSetStep (pset : List (InetAddr × InetAddr × InetAddr)) (it : JVal) :
    List (InetAddr × InetAddr × InetAddr) :=
  match poolItemParse it with
  | some t => setInsertPool t pset
  | none => pset

/-- ipAssignmentPools handler as written in the source: delete-for-network
plus the insert loop over the accumulated set run inside the per-item
loop. -/
def poolsGo (nwid : Nat) :
    St → List (InetAddr × InetAddr × InetAddr) → List JVal → St
  | st, _, [] => st
  | st, pset, it :: rest =>
      poolsGo nwid
        { st with pools := st.pools.filter (fun p => !(p.networkId == nwid)) ++
            (poolSetStep pset it).map (poolRowOf nwid) }
        (poolSetStep pset it) rest

def poolsApply (st : St) (nwid : Nat) (items : List JVal) : St :=
  poolsGo nwid st [] items

/-- The fields of one posted rule object. -/
structure RulePost where
  ruleNo : Option Int
  nodeId : Option String
  vlanId : Option Int
  vlanPcp : Option Int
  etherType : Option Int
  macSource : Option String
  macDest : Option String
  ipSource : Option String
  ipDest : Option String
  ipTos : Option Int
  ipProtocol : Option Int
  ipSourcePort : Option Int
  ipDestPort : Option Int
  flags : Option Int
  invFlags : Option Int
  action : Option String
  deriving DecidableEq, Repr

def rulePostOf (kvs : List (String × JVal)) : RulePost :=
  { ruleNo := lastInt kvs "ruleNo",
    nodeId := lastStr kvs "nodeId",
    vlanId := lastInt kvs "vlanId",
    vlanPcp := lastInt kvs "vlanPcp",
    etherType := lastInt kvs "etherType",
    macSource := lastStr kvs "macSource",
    macDest := lastStr kvs "macDest",
    ipSource := lastStr kvs "ipSource",
    ipDest := lastStr kvs "ipDest",
    ipTos := lastInt kvs "ipTos",
    ipProtocol := lastInt kvs "ipProtocol",
    ipSourcePort := lastInt kvs "ipSourcePort",
    ipDestPort := lastInt kvs "ipDestPort",
    flags := lastInt kvs "flags",
    invFlags := lastInt kvs "invFlags",
    action := lastStr kvs "action" }

/-- Modelled from the spec: MAC::fromString (not under src/) parses a
colon-separated hex MAC into its 48-bit value. -/
def macParse (s : String) : Nat :=
  hexToNat (String.mk (s.data.filter (fun c => !(c == ':')))) % 2 ^ 48

/-- The Rule row written by the INSERT. The prepared statement has fifteen
parameters, so the binds at indices 16 (invFlags) and 17 (action) are out
of range and do nothing, and index 15 — the action column — receives the
posted flags value when present and stays NULL otherwise. -/
def ruleRowOf (nwid : Nat) (rp : RulePost) : RuleRow :=
  { networkId := nwid,
    ruleNo := rp.ruleNo.getD 0,
    nodeId := rp.nodeId.bind (fun s => if s.length == 10 then some s else none),
    vlanId := rp.vlanId,
    vlanPcp := rp.vlanPcp,
    etherType := rp.etherType.map (fun e => e % 65536),
    macSource := rp.macSource.map (fun s => natToHexPad 12 (macParse s)),
    macDest := rp.macDest.map (fun s => natToHexPad 12 (macParse s)),
    ipSource := rp.ipSource,
    ipDest := rp.ipDest,
    ipTos := rp.ipTos,
    ipProtocol := rp.ipProtocol,
    ipSourcePort := rp.ipSourcePort.map (fun e => e % 65536),
    ipDestPort := rp.ipDestPort.map (fun e => e % 65536),
    action := rp.flags.map (fun f => toString f) }

/-- A rule is inserted when ruleNo is present and action is a nonempty
string. -/
def ruleRowOfItem (nwid : Nat) (v : JVal) : Option RuleRow :=
  match v with
  | JVal.jobj kvs =>
      let rp := rulePostOf kvs
      match rp.ruleNo, rp.action with
      | some _, some a => if a.length > 0 then some (ruleRowOf nwid rp) else none
      | _, _ => none
  | _ => none

def ruleStep (nwid : Nat) (s : St) (it : JVal) : St :=
  match ruleRowOfItem nwid it with
  | some row => { s with rules := s.rules ++ [row] }
  | none => s

/-- rules handler: one delete-for-network, then per-item insertion. -/
def rulesApply (st : St) (nwid : Nat) (items : List JVal) : St :=
  items.foldl (ruleStep nwid) (deleteRulesFor st nwid)

/-! ### POST /network/nwid assembly -/

def updateNetwork (st : St) (nwid : Nat) (f : NetworkRow → NetworkRow) : St :=
  { st with networks := st.networks.map (fun n => if n.id == nwid then f n else n) }

/-- One body field of a network POST, mirroring the strcmp dispatch chain:
unknown keys and type-mismatched values are ignored, except that a
"gateways" key of any value type reaches the gateways handler (whose
delete runs before the array check). -/
def netFieldStep (nwid : Nat) (st : St) (kv : String × JVal) : St :=
  if kv.1 = "name" then
    match kv.2 with
    | JVal.jstr s => if s.length > 0 then updateNetwork st nwid (fun n => { n with name := s }) else st
    | _ => st
  else if kv.1 = "private" then
    match kv.2 with
    | JVal.jbool b => updateNetwork st nwid (fun n => { n with isPrivate := b })
    | _ => st
  else if kv.1 = "enableBroadcast" then
    match kv.2 with
    | JVal.jbool b => updateNetwork st nwid (fun n => { n with enableBroadcast := b })
    | _ => st
  else if kv.1 = "allowPassiveBridging" then
    match kv.2 with
    | JVal.jbool b => updateNetwork st nwid (fun n => { n with allowPassiveBridging := b })
    | _ => st
  else if kv.1 = "v4AssignMode" then
    match kv.2 with
    | JVal.jstr s => updateNetwork st nwid (fun n => { n with v4AssignMode := s })
    | _ => st
  else if kv.1 = "v6AssignMode" then
    match kv.2 with
    | JVal.jstr s => updateNetwork st nwid (fun n => { n with v6AssignMode := s })
    | _ => st
  else if kv.1 = "multicastLimit" then
    match kv.2 with
    | JVal.jint i => updateNetwork st nwid (fun n => { n with multicastLimit := i })
    | _ => st
  else if kv.1 = "relays" then
    match kv.2 with
    | JVal.jarr items => relaysApply st nwid items
    | _ => st
  else if kv.1 = "routes" then
    match kv.2 with
    | JVal.jarr items => routesApply st nwid items
    | _ => st
  else if kv.1 = "gateways" then gatewaysApply st nwid kv.2
  else if kv.1 = "ipAssignmentPools" then
    match kv.2 with
    | JVal.jarr items => poolsApply st nwid items
    | _ => st
  else if kv.1 = "rules" then
    match kv.2 with
    | JVal.jarr items => rulesApply st nwid items
    | _ => st
  else st

def processNetFields (st : St) (nwid : Nat) (kvs : List (String × JVal)) : St :=
  kvs.foldl (netFieldStep nwid) st

/-- Modelled from the spec: the values a network row created by POST takes
for columns the INSERT does not mention come from schema defaults whose
source (schema.sql.c) is not under src/; no claim depends on them. -/
def freshNetwork (nwid now : Nat) : NetworkRow :=
  ⟨nwid, natToHexPad 16 nwid, true, true, false, "none", "none", 32, now, 1⟩

/-- POST /network/nwid for a plain 16-hex id: the revision is read first; a
missing network is created; body fields are applied; finally the revision
is written as the initially read value plus one and the GET view is
re-rendered (store writes are modelled as infallible, so the 500 paths do
not arise). -/
def handleNetworkPOST (st : St) (nwid : Nat) (body : Option JVal) (now : Nat) : Nat × St :=
  let rev0 := match findNetwork st nwid with
    | some n => n.revision
    | none => 0
  let st0 := match findNetwork st nwid with
    | some _ => st
    | none => { st with networks := st.networks ++ [freshNetwork nwid now] }
  let st1 := match body with
    | some (JVal.jobj kvs) => processNetFields st0 nwid kvs
    | _ => st0
  let st2 := updateNetwork st1 nwid (fun n => { n with revision := rev0 + 1 })
  ((match findNetwork st2 nwid with | some _ => 200 | none => 404), st2)

/-! ### A concrete scenario used by several closed theorems: a public
network in "zt" v4 mode whose only pool is 10.0.0.2 .. 10.0.0.10, with
10.0.0.2 already assigned to another member. -/

def exNw : Nat := 0xdeadbeefcafe0001

def exSigner : Identity := ⟨⟨0xdeadbeefca, 7⟩, true⟩

def exReqId : Identity := ⟨⟨0xaaaaaaaaaa, 3⟩, false⟩

def exSt : St :=
  { nodes := [⟨0xaaaaaaaaaa, some ⟨0xaaaaaaaaaa, 3⟩, "", 5, 5⟩],
    networks := [⟨exNw, "demo", false, true, false, "zt", "none", 32, 1, 2⟩],
    members := [⟨exNw, 0xaaaaaaaaaa, true, false⟩],
    ipAssignments := [⟨some 0x0a000000, exNw, 0xbbbbbbbbbb, 0x0a000002, 24, 4⟩],
    pools := [⟨exNw, 0x0a000000, 0x0a000002, 0x0a00000a⟩],
    routes := [⟨exNw, none, 0x0a000000, 24, 4⟩],
    relays := [], gateways := [], rules := [] }

def exReq : NetRequest := ⟨some "1.2.3.4/9993", exSigner, exReqId, exNw, 0, 99, true, true⟩

/-- The same store extended with a Node row for cccccccccc, which has no
member row on the network yet. -/
def exStC : St :=
  { exSt with nodes := exSt.nodes ++ [⟨0xcccccccccc, some ⟨0xcccccccccc, 5⟩, "", 5, 5⟩] }

/-- A config request from the fresh node cccccccccc. -/
def exReqC : NetRequest :=
  ⟨some "1.2.3.4/9993", exSigner, ⟨⟨0xcccccccccc, 5⟩, false⟩, exNw, 0, 99, true, true⟩

/-- A relays array posting the same node address twice with different
physical addresses. -/
def exRelayItems : List JVal :=
  [JVal.jobj [("address", JVal.jstr "aa"), ("phyAddress", JVal.jstr "1.2.3.4/5")],
   JVal.jobj [("address", JVal.jstr "aa"), ("phyAddress", JVal.jstr "9.9.9.9/1")]]

/-! ### Dictionary lemmas -/

theorem dictGet_cons (kv : String × String) (rest : Dict) (k : String) :
    dictGet (kv :: rest) k = if kv.1 = k then some kv.2 else dictGet rest k := by
  by_cases h : kv.1 = k
  · simp [dictGet, List.find?, h]
  · simp [dictGet, List.find?, h, beq_eq_false_iff_ne.mpr h]

theorem dictGet_dictSet (d : Dict) (k v k' : String) :
    dictGet (dictSet d k v) k' = if k' = k then some v else dictGet d k' := by
  induction d with
  | nil =>
      show dictGet [(k, v)] k' = _
      by_cases h : k' = k
      · rw [dictGet_cons, if_pos h.symm, if_pos h]
      · rw [dictGet_cons, if_neg (fun hh => h hh.symm), if_neg h]
  | cons kv rest ih =>
      show dictGet (if (k == kv.1) = true then (k, v) :: rest else kv :: dictSet rest k v) k' = _
      by_cases hk : k = kv.1
      · rw [if_pos (beq_iff_eq.mpr hk), dictGet_cons]
        by_cases h : k' = k
        · rw [if_pos h.symm, if_pos h]
        · rw [if_neg (fun hh => h hh.symm), if_neg h, dictGet_cons,
            if_neg (fun hh => h (hk.trans hh).symm)]
      · rw [if_neg (by simp [hk]), dictGet_cons, ih]
        by_cases h1 : kv.1 = k'
        · rw [if_pos h1, if_neg (fun h2 => hk ((h1.trans h2).symm)), dictGet_cons, if_pos h1]
        · rw [if_neg h1]
          by_cases h2 : k' = k
          · rw [if_pos h2, if_pos h2]
          · rw [if_neg h2, if_neg h2, dictGet_cons, if_neg h1]

theorem dictGet_dictSign (d : Dict) (s : Identity) (t : Nat) (k : String) (h : k ≠ kSig) :
    dictGet (dictSign d s t) k = dictGet d k := by
  rw [dictSign, dictGet_dictSet, if_neg h]

theorem dictGet_dictSign_sig (d : Dict) (s : Identity) (t : Nat) :
    dictGet (dictSign d s t) kSig ≠ none := by
  rw [dictSign, dictGet_dictSet, if_pos rfl]
  exact Option.some_ne_none _

/-! ### Frame (shape) lemmas: which store fields each operation can touch -/

theorem nodePhase_shape (req : NetRequest) (st st1 : St) (h : nodePhase req st = some st1) :
    ∃ nds, st1 = { st with nodes := nds } := by
  unfold nodePhase at h
  split at h
  · split at h
    · split at h
      · exact ⟨_, (Option.some_inj.mp h).symm⟩
      · cases h
    · cases h
  · exact ⟨_, (Option.some_inj.mp h).symm⟩

theorem allocTryRange_shape (st : St) (nwid nodeId bits : Nat) (l : List Nat) (ip : Nat) (st' : St)
    (h : allocTryRange st nwid nodeId bits l = some (ip, st')) :
    ∃ i, st' = { st with ipAssignments := i } := by
  induction l with
  | nil => cases h
  | cons x rest ih =>
      unfold allocTryRange at h
      split at h
      · exact ih h
      · simp only [Option.some_inj, Prod.mk.injEq] at h
        exact ⟨_, h.2.symm⟩

theorem autoAllocGo_shape (st : St) (nwid nodeId : Nat) (l : List (PoolRow × RouteRow))
    (ip bits : Nat) (st' : St) (h : autoAllocGo st nwid nodeId l = some (ip, bits, st')) :
    ∃ i, st' = { st with ipAssignments := i } := by
  induction l with
  | nil => cases h
  | cons pr rest ih =>
      unfold autoAllocGo at h
      dsimp only at h
      split at h
      · split at h
        · rename_i ip0 st0 heq
          simp only [Option.some_inj, Prod.mk.injEq] at h
          obtain ⟨h1, h2, h3⟩ := h
          exact allocTryRange_shape st nwid nodeId _ _ _ _ (h3 ▸ heq)
        · exact ih h
      · exact ih h

theorem v4Step_shape (req : NetRequest) (st : St) (network : NetworkRow) (nodeId : Nat) :
    ∃ i, (v4Step req st network nodeId).2 = { st with ipAssignments := i } := by
  unfold v4Step
  by_cases hm : (network.v4AssignMode == "zt") = true
  · rw [if_pos hm]
    by_cases he : (((v4sExisting st req.nwid nodeId).length : Nat) == 0) = true
    · rw [if_pos he]
      cases ha : autoAllocV4 st req.nwid nodeId with
      | none => exact ⟨st.ipAssignments, rfl⟩
      | some r =>
          obtain ⟨ip, bits, st'⟩ := r
          obtain ⟨i, hi⟩ := autoAllocGo_shape st req.nwid nodeId (poolJoinRows st req.nwid) ip bits st' ha
          exact ⟨i, hi⟩
    · rw [if_neg he]
      exact ⟨st.ipAssignments, rfl⟩
  · rw [if_neg hm]
    exact ⟨st.ipAssignments, rfl⟩

theorem buildAndSign_shape (req : NetRequest) (st : St) (network : NetworkRow) (mem : MemberRow) :
    ∃ i, (buildAndSign req st network mem).2.2 = { st with ipAssignments := i } := by
  obtain ⟨i, hi⟩ := v4Step_shape req st network mem.nodeId
  refine ⟨i, ?_⟩
  unfold buildAndSign finishSign
  split_ifs <;> exact hi

/-! ### Claim theorems -/

/-- C2: once a Node row exists for an address with stored identity I, a
config request presenting the same address with an identity that does not
compare equal to I — or where the stored identity fails to deserialize —
returns ACCESS_DENIED and leaves the whole store, and in particular the
stored Node row and its identity field, unchanged. -/
theorem C2_identity_binding (req : NetRequest) (st : St) (n : NodeRow)
    (hpriv : req.signingId.hasPriv = true)
    (haddr : req.signingId.pub.addr = req.nwid >>> 24)
    (hfind : findNode st req.identity.pub.addr = some n)
    (hmis : n.identity = none ∨ ∃ p, n.identity = some p ∧ p ≠ req.identity.pub) :
    doNetworkConfigRequest req st = (ResultCode.ACCESS_DENIED, [], st) := by
  have hnp : nodePhase req st = none := by
    unfold nodePhase
    rcases hmis with h | ⟨p, hp, hne⟩
    · simp only [hfind, h]
    · simp only [hfind, hp]
      rw [if_neg (by simp [hne])]
  unfold doNetworkConfigRequest configPrelude
  simp [hpriv, haddr, hnp]

/-- C2 witness: a concrete request whose identity collides with the stored
one is denied without mutating the store. -/
theorem C2_identity_binding_witness :
    exReq.signingId.hasPriv = true ∧
    doNetworkConfigRequest { exReq with identity := ⟨⟨0xaaaaaaaaaa, 4⟩, false⟩ } exSt
      = (ResultCode.ACCESS_DENIED, [], exSt) :=
  ⟨rfl, C2_identity_binding _ exSt ⟨0xaaaaaaaaaa, some ⟨0xaaaaaaaaaa, 3⟩, "", 5, 5⟩
    rfl (by decide) rfl (Or.inr ⟨⟨0xaaaaaaaaaa, 3⟩, rfl, by decide⟩)⟩

/-- C4: a config request by a requester whose identity matches the stored
Node identity, whose member row exists and is authorized, with a positive
haveRevision equal to the network's revision, returns OK_BUT_NOT_NEWER
with no payload, and the store is unchanged except for the Node-row touch,
which itself alters only lastSeen and lastAt. -/
theorem C4_revision_short_circuit (req : NetRequest) (st : St) (n : NodeRow) (net : NetworkRow)
    (m : MemberRow)
    (hpriv : req.signingId.hasPriv = true)
    (haddr : req.signingId.pub.addr = req.nwid >>> 24)
    (hnode : findNode st req.identity.pub.addr = some n)
    (hid : n.identity = some req.identity.pub)
    (hnet : findNetwork st req.nwid = some net)
    (hmem : findMember st req.nwid req.identity.pub.addr = some m)
    (hauth : m.authorized = true)
    (hrev0 : 0 < req.haveRevision)
    (hrev : req.haveRevision = net.revision) :
    doNetworkConfigRequest req st
      = (ResultCode.OK_BUT_NOT_NEWER, [], { st with nodes := st.nodes.map (nodeTouch req) }) ∧
    ∀ nd : NodeRow, (nodeTouch req nd).id = nd.id ∧ (nodeTouch req nd).identity = nd.identity ∧
      (nodeTouch req nd).firstSeen = nd.firstSeen := by
  constructor
  · have hnp : nodePhase req st = some { st with nodes := st.nodes.map (nodeTouch req) } := by
      unfold nodePhase
      simp only [hnode, hid]
      rw [if_pos (by simp)]
    have hnet1 : findNetwork { st with nodes := st.nodes.map (nodeTouch req) } req.nwid = some net := hnet
    have hmem1 : findMember { st with nodes := st.nodes.map (nodeTouch req) } req.nwid
        req.identity.pub.addr = some m := hmem
    have hrev0' : 0 < net.revision := hrev ▸ hrev0
    unfold doNetworkConfigRequest configPrelude
    simp [hpriv, haddr, hnp, hnet1, hmem1, hauth, hrev, hrev0']
  · intro nd
    unfold nodeTouch
    split
    · cases req.fromAddr <;> simp
    · simp

/-- C4 witness: the concrete scenario with haveRevision equal to the
current network revision. -/
theorem C4_revision_short_circuit_witness :
    0 < (2 : Nat) ∧
    doNetworkConfigRequest { exReq with haveRevision := 2 } exSt
      = (ResultCode.OK_BUT_NOT_NEWER, [],
         { exSt with nodes := exSt.nodes.map (nodeTouch { exReq with haveRevision := 2 }) }) :=
  ⟨by decide,
   (C4_revision_short_circuit { exReq with haveRevision := 2 } exSt
     ⟨0xaaaaaaaaaa, some ⟨0xaaaaaaaaaa, 3⟩, "", 5, 5⟩
     ⟨exNw, "demo", false, true, false, "zt", "none", 32, 1, 2⟩
     ⟨exNw, 0xaaaaaaaaaa, true, false⟩
     rfl (by decide) rfl rfl rfl rfl rfl (by decide) rfl).1⟩

/-- C1: at the concrete failing input — a pool 10.0.0.2 .. 10.0.0.10 whose
first address is already assigned to another member — the source's
allocator reserves nothing (it binds both scan bounds from the ipFirst
column, so 10.0.0.2 is the only candidate) and the request returns OK with
no v4s key, although 10.0.0.3 is free inside the pool and the
spec-intended scan over [ipFirst, ipLast] would reserve it. -/
theorem C1_allocator_single_candidate :
    (doNetworkConfigRequest exReq exSt).1 = ResultCode.OK ∧
    dictGet (doNetworkConfigRequest exReq exSt).2.1 kV4s = none ∧
    autoAllocV4 exSt exNw 0xaaaaaaaaaa = none ∧
    (autoAllocV4Intended exSt exNw 0xaaaaaaaaaa).map (fun x => x.1) = some 0x0a000003 ∧
    isAllocated exSt exNw 0x0a000002 = true ∧
    isAllocated exSt exNw 0x0a000003 = false := by
  refine ⟨?_, ?_, ?_, ?_, ?_, ?_⟩ <;> decide

/-! ### Shape lemmas for the control-plane handlers -/

theorem find?_map_upd (l : List NetworkRow) (nwid : Nat) (f : NetworkRow → NetworkRow)
    (hf : ∀ n, (f n).id = n.id) :
    (l.map (fun n => if n.id == nwid then f n else n)).find? (fun n => n.id == nwid)
      = (l.find? (fun n => n.id == nwid)).map f := by
  induction l with
  | nil => rfl
  | cons a l ih =>
      cases h : (a.id == nwid) with
      | true =>
          have hfa : ((f a).id == nwid) = true := by rw [hf a]; exact h
          rw [List.map_cons, if_pos h,
            List.find?_cons_of_pos (List.map (fun n => if (n.id == nwid) = true then f n else n) l) hfa,
            List.find?_cons_of_pos l h]
          rfl
      | false =>
          rw [List.map_cons, if_neg (by simp [h]),
            List.find?_cons_of_neg (List.map (fun n => if (n.id == nwid) = true then f n else n) l)
              (by simp [h]),
            List.find?_cons_of_neg l (by simp [h]), ih]

theorem findNetwork_updateNetwork (st : St) (nwid : Nat) (f : NetworkRow → NetworkRow)
    (hf : ∀ n, (f n).id = n.id) :
    findNetwork (updateNetwork st nwid f) nwid = (findNetwork st nwid).map f := by
  unfold findNetwork updateNetwork
  exact find?_map_upd st.networks nwid f hf

theorem routesGo_shape (nwid : Nat) :
    ∀ (items : List JVal) (st : St) (rset : List InetAddr),
      ∃ r, routesGo nwid st rset items = { st with routes := r } := by
  intro items
  induction items with
  | nil => intro st rset; exact ⟨st.routes, rfl⟩
  | cons it rest ih =>
      intro st rset
      obtain ⟨r, hr⟩ := ih
        { st with routes := st.routes.filter (fun rr => !(rr.networkId == nwid)) ++
            (routeSetStep rset it).map (routeRowOf nwid (routeItemParse it).1) }
        (routeSetStep rset it)
      exact ⟨r, hr⟩

theorem poolsGo_shape (nwid : Nat) :
    ∀ (items : List JVal) (st : St) (pset : List (InetAddr × InetAddr × InetAddr)),
      ∃ p, poolsGo nwid st pset items = { st with pools := p } := by
  intro items
  induction items with
  | nil => intro st pset; exact ⟨st.pools, rfl⟩
  | cons it rest ih =>
      intro st pset
      obtain ⟨p, hp⟩ := ih
        { st with pools := st.pools.filter (fun p => !(p.networkId == nwid)) ++
            (poolSetStep pset it).map (poolRowOf nwid) }
        (poolSetStep pset it)
      exact ⟨p, hp⟩

theorem gatewaysFold_shape (nwid : Nat) :
    ∀ (items : List JVal) (st : St), ∃ g, items.foldl (gatewayStep nwid) st = { st with gateways := g } := by
  intro items
  induction items with
  | nil => intro st; exact ⟨st.gateways, rfl⟩
  | cons it rest ih =>
      intro st
      have hstep : ∃ g, gatewayStep nwid st it = { st with gateways := g } := by
        unfold gatewayStep
        split
        · split_ifs <;> exact ⟨_, rfl⟩
        · exact ⟨st.gateways, rfl⟩
      obtain ⟨g, hg⟩ := hstep
      obtain ⟨g2, hg2⟩ := ih { st with gateways := g }
      exact ⟨g2, by rw [List.foldl_cons, hg, hg2]⟩

theorem gatewaysApply_shape (st : St) (nwid : Nat) (v : JVal) :
    ∃ g, gatewaysApply st nwid v = { st with gateways := g } := by
  unfold gatewaysApply
  split
  · obtain ⟨g, hg⟩ := gatewaysFold_shape nwid _ (deleteGatewaysFor st nwid)
    exact ⟨g, hg⟩
  · exact ⟨_, rfl⟩

theorem rulesFold_shape (nwid : Nat) :
    ∀ (items : List JVal) (st : St), ∃ r, items.foldl (ruleStep nwid) st = { st with rules := r } := by
  intro items
  induction items with
  | nil => intro st; exact ⟨st.rules, rfl⟩
  | cons it rest ih =>
      intro st
      have hstep : ∃ r, ruleStep nwid st it = { st with rules := r } := by
        unfold ruleStep
        split
        · exact ⟨_, rfl⟩
        · exact ⟨st.rules, rfl⟩
      obtain ⟨r, hr⟩ := hstep
      obtain ⟨r2, hr2⟩ := ih { st with rules := r }
      exact ⟨r2, by rw [List.foldl_cons, hr, hr2]⟩

theorem rulesApply_shape (st : St) (nwid : Nat) (items : List JVal) :
    ∃ r, rulesApply st nwid items = { st with rules := r } := by
  obtain ⟨r, hr⟩ := rulesFold_shape nwid items (deleteRulesFor st nwid)
  exact ⟨r, hr⟩

/-- Every network-POST body field preserves the revision of the network's
row (and its existence): only the final explicit bump writes revision. -/
theorem netFieldStep_revision (nwid : Nat) (st : St) (kv : String × JVal) :
    (findNetwork (netFieldStep nwid st kv) nwid).map (fun n => n.revision)
      = (findNetwork st nwid).map (fun n => n.revision) := by
  have hupd : ∀ (f : NetworkRow → NetworkRow), (∀ n, (f n).id = n.id) →
      (∀ n, (f n).revision = n.revision) →
      (findNetwork (updateNetwork st nwid f) nwid).map (fun n => n.revision)
        = (findNetwork st nwid).map (fun n => n.revision) := by
    intro f hid hrev
    rw [findNetwork_updateNetwork st nwid f hid]
    cases findNetwork st nwid <;> simp [hrev]
  have hcoll : ∀ st' : St, st'.networks = st.networks →
      (findNetwork st' nwid).map (fun n => n.revision)
        = (findNetwork st nwid).map (fun n => n.revision) := by
    intro st' h
    unfold findNetwork
    rw [h]
  unfold netFieldStep
  by_cases h1 : kv.1 = "name"
  · rw [if_pos h1]
    cases kv.2 with
    | jstr s =>
        dsimp only
        by_cases hl : s.length > 0
        · rw [if_pos hl]; exact hupd _ (fun n => rfl) (fun n => rfl)
        · rw [if_neg hl]
    | jint i => rfl
    | jbool b => rfl
    | jarr xs => rfl
    | jobj kvs => rfl
    | jnull => rfl
  rw [if_neg h1]
  by_cases h2 : kv.1 = "private"
  · rw [if_pos h2]
    cases kv.2 with
    | jbool b => exact hupd _ (fun n => rfl) (fun n => rfl)
    | jstr s => rfl
    | jint i => rfl
    | jarr xs => rfl
    | jobj kvs => rfl
    | jnull => rfl
  rw [if_neg h2]
  by_cases h3 : kv.1 = "enableBroadcast"
  · rw [if_pos h3]
    cases kv.2 with
    | jbool b => exact hupd _ (fun n => rfl) (fun n => rfl)
    | jstr s => rfl
    | jint i => rfl
    | jarr xs => rfl
    | jobj kvs => rfl
    | jnull => rfl
  rw [if_neg h3]
  by_cases h4 : kv.1 = "allowPassiveBridging"
  · rw [if_pos h4]
    cases kv.2 with
    | jbool b => exact hupd _ (fun n => rfl) (fun n => rfl)
    | jstr s => rfl
    | jint i => rfl
    | jarr xs => rfl
    | jobj kvs => rfl
    | jnull => rfl
  rw [if_neg h4]
  by_cases h5 : kv.1 = "v4AssignMode"
  · rw [if_pos h5]
    cases kv.2 with
    | jstr s => exact hupd _ (fun n => rfl) (fun n => rfl)
    | jint i => rfl
    | jbool b => rfl
    | jarr xs => rfl
    | jobj kvs => rfl
    | jnull => rfl
  rw [if_neg h5]
  by_cases h6 : kv.1 = "v6AssignMode"
  · rw [if_pos h6]
    cases kv.2 with
    | jstr s => exact hupd _ (fun n => rfl) (fun n => rfl)
    | jint i => rfl
    | jbool b => rfl
    | jarr xs => rfl
    | jobj kvs => rfl
    | jnull => rfl
  rw [if_neg h6]
  by_cases h7 : kv.1 = "multicastLimit"
  · rw [if_pos h7]
    cases kv.2 with
    | jint i => exact hupd _ (fun n => rfl) (fun n => rfl)
    | jstr s => rfl
    | jbool b => rfl
    | jarr xs => rfl
    | jobj kvs => rfl
    | jnull => rfl
  rw [if_neg h7]
  by_cases h8 : kv.1 = "relays"
  · rw [if_pos h8]
    cases kv.2 <;> rfl
  rw [if_neg h8]
  by_cases h9 : kv.1 = "routes"
  · rw [if_pos h9]
    cases kv.2 with
    | jarr items =>
        obtain ⟨r, hr⟩ := routesGo_shape nwid items st []
        exact hcoll _ (by
          show (routesGo nwid st [] items).networks = st.networks
          rw [hr])
    | jstr s => rfl
    | jint i => rfl
    | jbool b => rfl
    | jobj kvs => rfl
    | jnull => rfl
  rw [if_neg h9]
  by_cases h10 : kv.1 = "gateways"
  · rw [if_pos h10]
    obtain ⟨g, hg⟩ := gatewaysApply_shape st nwid kv.2
    exact hcoll _ (by rw [hg])
  rw [if_neg h10]
  by_cases h11 : kv.1 = "ipAssignmentPools"
  · rw [if_pos h11]
    cases kv.2 with
    | jarr items =>
        obtain ⟨p, hp⟩ := poolsGo_shape nwid items st []
        exact hcoll _ (by
          show (poolsGo nwid st [] items).networks = st.networks
          rw [hp])
    | jstr s => rfl
    | jint i => rfl
    | jbool b => rfl
    | jobj kvs => rfl
    | jnull => rfl
  rw [if_neg h11]
  by_cases h12 : kv.1 = "rules"
  · rw [if_pos h12]
    cases kv.2 with
    | jarr items =>
        obtain ⟨r, hr⟩ := rulesApply_shape st nwid items
        exact hcoll _ (by
          show (rulesApply st nwid items).networks = st.networks
          rw [hr])
    | jstr s => rfl
    | jint i => rfl
    | jbool b => rfl
    | jobj kvs => rfl
    | jnull => rfl
  rw [if_neg h12]

theorem processNetFields_revision (nwid : Nat) :
    ∀ (kvs : List (String × JVal)) (st : St),
      (findNetwork (processNetFields st nwid kvs) nwid).map (fun n => n.revision)
        = (findNetwork st nwid).map (fun n => n.revision) := by
  intro kvs
  induction kvs with
  | nil => intro st; rfl
  | cons kv rest ih =>
      intro st
      show (findNetwork (processNetFields (netFieldStep nwid st kv) nwid rest) nwid).map _ = _
      rw [ih (netFieldStep nwid st kv), netFieldStep_revision]

theorem memberIpFold_shape (nwid addr : Nat) :
    ∀ (xs : List JVal) (st : St), ∃ ia, xs.foldl (memberIpInsert nwid addr) st = { st with ipAssignments := ia } := by
  intro xs
  induction xs with
  | nil => intro st; exact ⟨st.ipAssignments, rfl⟩
  | cons x rest ih =>
      intro st
      have hstep : ∃ ia, memberIpInsert nwid addr st x = { st with ipAssignments := ia } := by
        unfold memberIpInsert
        split
        · split_ifs <;> exact ⟨_, rfl⟩
        · exact ⟨st.ipAssignments, rfl⟩
      obtain ⟨ia, hia⟩ := hstep
      obtain ⟨ia2, hia2⟩ := ih { st with ipAssignments := ia }
      exact ⟨ia2, by rw [List.foldl_cons, hia, hia2]⟩

theorem memberFieldStep_shape (nwid addr : Nat) (st : St) (kv : String × JVal) :
    ∃ ms ia, memberFieldStep nwid addr st kv = { st with members := ms, ipAssignments := ia } := by
  unfold memberFieldStep
  split
  · exact ⟨_, st.ipAssignments, rfl⟩
  · exact ⟨_, st.ipAssignments, rfl⟩
  · obtain ⟨ia, hia⟩ := memberIpFold_shape nwid addr _ (deleteIpAllocations st nwid addr)
    exact ⟨st.members, ia, hia⟩
  · exact ⟨st.members, st.ipAssignments, rfl⟩

theorem memberFieldsFold_shape (nwid addr : Nat) :
    ∀ (kvs : List (String × JVal)) (st : St),
      ∃ ms ia, kvs.foldl (memberFieldStep nwid addr) st = { st with members := ms, ipAssignments := ia } := by
  intro kvs
  induction kvs with
  | nil => intro st; exact ⟨st.members, st.ipAssignments, rfl⟩
  | cons kv rest ih =>
      intro st
      obtain ⟨ms, ia, h1⟩ := memberFieldStep_shape nwid addr st kv
      obtain ⟨ms2, ia2, h2⟩ := ih { st with members := ms, ipAssignments := ia }
      exact ⟨ms2, ia2, by rw [List.foldl_cons, h1, h2]⟩

theorem memberEnsure_shape (st : St) (nwid addr : Nat) :
    ∃ ms, memberEnsure st nwid addr = { st with members := ms } := by
  unfold memberEnsure
  cases findMember st nwid addr with
  | some m => exact ⟨st.members, rfl⟩
  | none => exact ⟨_, rfl⟩

theorem memberPostApply_shape (st : St) (nwid addr : Nat) (body : Option JVal) :
    ∃ ms ia, memberPostApply st nwid addr body = { st with members := ms, ipAssignments := ia } := by
  unfold memberPostApply
  split
  · exact memberFieldsFold_shape nwid addr _ st
  · exact ⟨st.members, st.ipAssignments, rfl⟩

/-- A member POST touches only the Member and IpAssignment tables. -/
theorem handleMemberPOST_shape (st : St) (nwid addr : Nat) (body : Option JVal) :
    ∃ ms ia, (handleMemberPOST st nwid addr body).2 = { st with members := ms, ipAssignments := ia } := by
  unfold handleMemberPOST
  split
  · exact ⟨st.members, st.ipAssignments, rfl⟩
  · obtain ⟨ms, hms⟩ := memberEnsure_shape st nwid addr
    obtain ⟨ms2, ia2, h2⟩ := memberPostApply_shape (memberEnsure st nwid addr) nwid addr body
    refine ⟨ms2, ia2, ?_⟩
    show memberPostApply (memberEnsure st nwid addr) nwid addr body = _
    rw [h2, hms]

/-- C3 counterexample: a successful POST to the member resource (status
200, and it even flips authorized) leaves the network revision unchanged
at 2, where the claim requires it to become 3. -/
theorem C3_member_post_does_not_bump :
    (handleMemberPOST exSt exNw 0xaaaaaaaaaa (some (JVal.jobj [("authorized", JVal.jbool true)]))).1
      = 200 ∧
    (findNetwork exSt exNw).map (fun n => n.revision) = some 2 ∧
    (findNetwork (handleMemberPOST exSt exNw 0xaaaaaaaaaa
        (some (JVal.jobj [("authorized", JVal.jbool true)]))).2 exNw).map (fun n => n.revision)
      = some 2 := by
  refine ⟨?_, ?_, ?_⟩ <;> decide

/-- C3 amended: a successful POST to /network/nwid on an existing network
leaves its revision at exactly one more than before; a POST to
/network/nwid/member/addr never changes the network revision. -/
theorem C3_revision_semantics (st : St) (nwid : Nat) (body : Option JVal) (now : Nat)
    (net : NetworkRow) (hnet : findNetwork st nwid = some net) :
    (findNetwork (handleNetworkPOST st nwid body now).2 nwid).map (fun n => n.revision)
      = some (net.revision + 1) ∧
    ∀ (addr : Nat) (mbody : Option JVal),
      (findNetwork (handleMemberPOST st nwid addr mbody).2 nwid).map (fun n => n.revision)
        = some net.revision := by
  constructor
  · unfold handleNetworkPOST
    simp only [hnet]
    have hbody : ∃ st1 : St,
        (match body with
         | some (JVal.jobj kvs) => processNetFields st nwid kvs
         | _ => st)
          = st1 ∧
        (findNetwork st1 nwid).map (fun n => n.revision) = some net.revision := by
      cases body with
      | none => exact ⟨st, rfl, by rw [hnet]; rfl⟩
      | some j =>
          cases j with
          | jobj kvs =>
              refine ⟨processNetFields st nwid kvs, rfl, ?_⟩
              rw [processNetFields_revision, hnet]
              rfl
          | jstr s => exact ⟨st, rfl, by rw [hnet]; rfl⟩
          | jint n => exact ⟨st, rfl, by rw [hnet]; rfl⟩
          | jbool b => exact ⟨st, rfl, by rw [hnet]; rfl⟩
          | jarr xs => exact ⟨st, rfl, by rw [hnet]; rfl⟩
          | jnull => exact ⟨st, rfl, by rw [hnet]; rfl⟩
    obtain ⟨st1, hst1, hrev1⟩ := hbody
    rw [hst1]
    obtain ⟨n1, hn1⟩ : ∃ n1, findNetwork st1 nwid = some n1 ∧ n1.revision = net.revision := by
      cases hf : findNetwork st1 nwid with
      | none => rw [hf] at hrev1; cases hrev1
      | some n1 =>
          rw [hf] at hrev1
          exact ⟨n1, rfl, by simpa using hrev1⟩
    rw [findNetwork_updateNetwork st1 nwid
      (fun n => { n with revision := net.revision + 1 }) (fun n => rfl), hn1.1]
    simp
  · intro addr mbody
    obtain ⟨ms, ia, h⟩ := handleMemberPOST_shape st nwid addr mbody
    rw [h]
    show (findNetwork st nwid).map _ = _
    rw [hnet]
    rfl

/-- C3 witness: at the concrete store the network POST moves the revision
from 2 to 3. -/
theorem C3_revision_semantics_witness :
    findNetwork exSt exNw = some ⟨exNw, "demo", false, true, false, "zt", "none", 32, 1, 2⟩ ∧
    (findNetwork (handleNetworkPOST exSt exNw none 7).2 exNw).map (fun n => n.revision) = some 3 :=
  ⟨rfl, (C3_revision_semantics exSt exNw none 7 ⟨exNw, "demo", false, true, false, "zt", "none", 32, 1, 2⟩ rfl).1⟩

/-! ### Member-presence lemmas -/

theorem find?_map_keyed {α : Type} (p : α → Bool) (f : α → α) (hp : ∀ a, p (f a) = p a) :
    ∀ l : List α, (l.map (fun a => if p a then f a else a)).find? p = (l.find? p).map f := by
  intro l
  induction l with
  | nil => rfl
  | cons a l ih =>
      cases h : p a with
      | true =>
          have hfa : p (f a) = true := by rw [hp a]; exact h
          rw [List.map_cons, if_pos h,
            List.find?_cons_of_pos (List.map (fun a => if p a then f a else a) l) hfa,
            List.find?_cons_of_pos l h]
          rfl
      | false =>
          rw [List.map_cons, if_neg (by simp [h]),
            List.find?_cons_of_neg (List.map (fun a => if p a then f a else a) l) (by simp [h]),
            List.find?_cons_of_neg l (by simp [h]), ih]

theorem findMember_updateMember (st : St) (nwid addr : Nat) (f : MemberRow → MemberRow)
    (hf : ∀ m, (f m).networkId = m.networkId ∧ (f m).nodeId = m.nodeId) :
    findMember (updateMember st nwid addr f) nwid addr = (findMember st nwid addr).map f := by
  unfold findMember updateMember
  exact find?_map_keyed _ f (fun m => by rw [(hf m).1, (hf m).2]) st.members

theorem findMember_congr (st st' : St) (h : st'.members = st.members) (nwid addr : Nat) :
    findMember st' nwid addr = findMember st nwid addr := by
  unfold findMember
  rw [h]

theorem findNode_congr (st st' : St) (h : st'.nodes = st.nodes) (a : Nat) :
    findNode st' a = findNode st a := by
  unfold findNode
  rw [h]

theorem memberFieldStep_presence (nwid addr : Nat) (st : St) (kv : String × JVal)
    (h : (findMember st nwid addr).isSome = true) :
    (findMember (memberFieldStep nwid addr st kv) nwid addr).isSome = true := by
  unfold memberFieldStep
  split
  · rename_i b
    rw [findMember_updateMember st nwid addr (fun m => { m with authorized := b })
      (fun m => ⟨rfl, rfl⟩)]
    simpa using h
  · rename_i b
    rw [findMember_updateMember st nwid addr (fun m => { m with activeBridge := b })
      (fun m => ⟨rfl, rfl⟩)]
    simpa using h
  · rename_i xs
    obtain ⟨ia, hia⟩ := memberIpFold_shape nwid addr xs (deleteIpAllocations st nwid addr)
    rw [hia]
    exact h
  · exact h

theorem memberFieldsFold_presence (nwid addr : Nat) :
    ∀ (kvs : List (String × JVal)) (st : St), (findMember st nwid addr).isSome = true →
      (findMember (kvs.foldl (memberFieldStep nwid addr) st) nwid addr).isSome = true := by
  intro kvs
  induction kvs with
  | nil => intro st h; exact h
  | cons kv rest ih =>
      intro st h
      rw [List.foldl_cons]
      exact ih _ (memberFieldStep_presence nwid addr st kv h)

theorem memberPostApply_presence (st : St) (nwid addr : Nat) (body : Option JVal)
    (h : (findMember st nwid addr).isSome = true) :
    (findMember (memberPostApply st nwid addr body) nwid addr).isSome = true := by
  unfold memberPostApply
  split
  · exact memberFieldsFold_presence nwid addr _ st h
  · exact h

theorem memberEnsure_presence (st : St) (nwid addr : Nat) :
    (findMember (memberEnsure st nwid addr) nwid addr).isSome = true := by
  unfold memberEnsure
  cases hm : findMember st nwid addr with
  | some m => simp [hm]
  | none =>
      unfold findMember at hm ⊢
      simp [List.find?_append, hm, List.find?]

/-- With an existing network, a member POST is exactly the
create-then-apply-then-render pipeline. -/
theorem handleMemberPOST_run (st : St) (nwid addr : Nat) (body : Option JVal) (net : NetworkRow)
    (hnet : findNetwork st nwid = some net) :
    handleMemberPOST st nwid addr body
      = (memberViewStatus (memberPostApply (memberEnsure st nwid addr) nwid addr body) nwid addr,
         memberPostApply (memberEnsure st nwid addr) nwid addr body) := by
  unfold handleMemberPOST
  rw [hnet]

/-- C9 amended: a member POST on an existing network creates the member row
before the body is examined, so the member exists afterwards for any body,
valid JSON or not; the response is the 200 member view exactly when a Node
row exists for the address (the member GET joins Member with Node), and
404 otherwise. -/
theorem C9_member_post_semantics (st : St) (nwid addr : Nat) (body : Option JVal)
    (net : NetworkRow) (hnet : findNetwork st nwid = some net) :
    (findMember (handleMemberPOST st nwid addr body).2 nwid addr).isSome = true ∧
    ((findNode st addr).isSome = true → (handleMemberPOST st nwid addr body).1 = 200) ∧
    (findNode st addr = none → (handleMemberPOST st nwid addr body).1 = 404) := by
  rw [handleMemberPOST_run st nwid addr body net hnet]
  have hpres : (findMember (memberPostApply (memberEnsure st nwid addr) nwid addr body)
      nwid addr).isSome = true :=
    memberPostApply_presence _ nwid addr body (memberEnsure_presence st nwid addr)
  have hnodes : (memberPostApply (memberEnsure st nwid addr) nwid addr body).nodes = st.nodes := by
    obtain ⟨ms, hmsE⟩ := memberEnsure_shape st nwid addr
    obtain ⟨ms2, ia2, hA⟩ := memberPostApply_shape (memberEnsure st nwid addr) nwid addr body
    rw [hA, hmsE]
  refine ⟨hpres, ?_, ?_⟩
  · intro hn
    show memberViewStatus _ nwid addr = 200
    obtain ⟨m2, hm2⟩ := Option.isSome_iff_exists.mp hpres
    obtain ⟨nd, hnd⟩ := Option.isSome_iff_exists.mp hn
    unfold memberViewStatus
    rw [hm2, findNode_congr st _ hnodes addr, hnd]
  · intro hn
    show memberViewStatus _ nwid addr = 404
    obtain ⟨m2, hm2⟩ := Option.isSome_iff_exists.mp hpres
    unfold memberViewStatus
    rw [hm2, findNode_congr st _ hnodes addr, hn]

/-- C9 counterexample: a member POST for an address with no Node row
creates the member but answers 404, not the 200 member view the claim
requires. -/
theorem C9_node_less_member_gets_404 :
    findMember exSt exNw 0xcccccccccc = none ∧
    findNode exSt 0xcccccccccc = none ∧
    (handleMemberPOST exSt exNw 0xcccccccccc none).1 = 404 ∧
    (findMember (handleMemberPOST exSt exNw 0xcccccccccc none).2 exNw 0xcccccccccc).isSome
      = true := by
  refine ⟨?_, ?_, ?_, ?_⟩ <;> decide

/-- C9 witness: with the Node row present the same POST answers 200. -/
theorem C9_member_post_semantics_witness :
    findNetwork exSt exNw = some ⟨exNw, "demo", false, true, false, "zt", "none", 32, 1, 2⟩ ∧
    (handleMemberPOST exSt exNw 0xaaaaaaaaaa (some (JVal.jobj []))).1 = 200 :=
  ⟨rfl, (C9_member_post_semantics exSt exNw 0xaaaaaaaaaa (some (JVal.jobj []))
    ⟨exNw, "demo", false, true, false, "zt", "none", 32, 1, 2⟩ rfl).2.1 (by decide)⟩

/-- C6 amended: a member row created by a config request is initialized
with authorized equal to the negation of the network's private flag; a
member row created through the admin member POST is initialized with
authorized false regardless of the network's privacy (the create statement
binds the constant 0 on that path, as an empty body exhibits). -/
theorem C6_member_creation_defaults :
    (∀ (req : NetRequest) (st : St) (n : NodeRow) (net : NetworkRow),
      req.signingId.hasPriv = true →
      req.signingId.pub.addr = req.nwid >>> 24 →
      findNode st req.identity.pub.addr = some n →
      n.identity = some req.identity.pub →
      findNetwork st req.nwid = some net →
      findMember st req.nwid req.identity.pub.addr = none →
      findMember (doNetworkConfigRequest req st).2.2 req.nwid req.identity.pub.addr
        = some ⟨req.nwid, req.identity.pub.addr, !net.isPrivate, false⟩) ∧
    (∀ (st : St) (nwid addr : Nat) (net : NetworkRow),
      findNetwork st nwid = some net →
      findMember st nwid addr = none →
      findMember (handleMemberPOST st nwid addr none).2 nwid addr
        = some ⟨nwid, addr, false, false⟩) := by
  constructor
  · intro req st n net hpriv haddr hnode hid hnet hmem
    have hnp : nodePhase req st = some { st with nodes := st.nodes.map (nodeTouch req) } := by
      unfold nodePhase
      simp only [hnode, hid]
      rw [if_pos (by simp)]
    have hnetU : findNetwork { st with nodes := st.nodes.map (nodeTouch req) } req.nwid
        = some net := hnet
    have hmemU : findMember { st with nodes := st.nodes.map (nodeTouch req) } req.nwid
        req.identity.pub.addr = none := hmem
    have hins : ∀ au : Bool,
        findMember
          { st with
            nodes := st.nodes.map (nodeTouch req),
            members := st.members ++ [⟨req.nwid, req.identity.pub.addr, au, false⟩] }
          req.nwid req.identity.pub.addr
          = some ⟨req.nwid, req.identity.pub.addr, au, false⟩ := by
      intro au
      unfold findMember at hmem ⊢
      simp [List.find?_append, hmem, List.find?]
    cases hp : net.isPrivate with
    | true =>
        have hpre : configPrelude req st = .error (.ACCESS_DENIED, [],
            { st with
              nodes := st.nodes.map (nodeTouch req),
              members := st.members ++ [⟨req.nwid, req.identity.pub.addr, false, false⟩] }) := by
          unfold configPrelude
          simp [hpriv, haddr, hnp, hnetU, hmemU, hp]
        unfold doNetworkConfigRequest
        rw [hpre]
        simpa [hp] using hins false
    | false =>
        by_cases hrc : (decide (0 < req.haveRevision) && req.haveRevision == net.revision) = true
        · have hpre : configPrelude req st = .error (.OK_BUT_NOT_NEWER, [],
              { st with
                nodes := st.nodes.map (nodeTouch req),
                members := st.members ++ [⟨req.nwid, req.identity.pub.addr, true, false⟩] }) := by
            unfold configPrelude
            simp [hpriv, haddr, hnp, hnetU, hmemU, hp, hrc]
          unfold doNetworkConfigRequest
          rw [hpre]
          simpa [hp] using hins true
        · have hpre : configPrelude req st = .ok
              ({ st with
                 nodes := st.nodes.map (nodeTouch req),
                 members := st.members ++ [⟨req.nwid, req.identity.pub.addr, true, false⟩] },
               net, ⟨req.nwid, req.identity.pub.addr, true, false⟩) := by
            unfold configPrelude
            simp [hpriv, haddr, hnp, hnetU, hmemU, hp, hrc]
          unfold doNetworkConfigRequest
          rw [hpre]
          obtain ⟨i, hi⟩ := buildAndSign_shape req
            { st with
              nodes := st.nodes.map (nodeTouch req),
              members := st.members ++ [⟨req.nwid, req.identity.pub.addr, true, false⟩] }
            net ⟨req.nwid, req.identity.pub.addr, true, false⟩
          show findMember (buildAndSign req _ net _).2.2 req.nwid req.identity.pub.addr = _
          rw [hi]
          simpa [hp] using hins true
  · intro st nwid addr net hnet hmem
    rw [handleMemberPOST_run st nwid addr none net hnet]
    show findMember (memberEnsure st nwid addr) nwid addr = _
    unfold memberEnsure
    simp only [hmem]
    unfold findMember at hmem ⊢
    simp [List.find?_append, hmem, List.find?]

/-- C6 counterexample: on the public network the admin member POST creates
the member with authorized false, where the claim requires true. -/
theorem C6_admin_create_on_public_network :
    (findNetwork exSt exNw).map (fun n => n.isPrivate) = some false ∧
    findMember exSt exNw 0xdddddddddd = none ∧
    findMember (handleMemberPOST exSt exNw 0xdddddddddd none).2 exNw 0xdddddddddd
      = some ⟨exNw, 0xdddddddddd, false, false⟩ := by
  refine ⟨?_, ?_, ?_⟩ <;> decide

/-! ### Dictionary-content lemmas for the payload -/

theorem dictGet_dictSet_ne (d : Dict) (k v k' : String) (h : k' ≠ k) :
    dictGet (dictSet d k v) k' = dictGet d k' := by
  rw [dictGet_dictSet, if_neg h]

theorem dictGet_dictSet_same (d : Dict) (k v : String) :
    dictGet (dictSet d k v) k = some v := by
  rw [dictGet_dictSet, if_pos rfl]

theorem dictGet_ite_dictSet_ne {c : Prop} [Decidable c] (d : Dict) (k v k' : String) (h : k' ≠ k) :
    dictGet (if c then dictSet d k v else d) k' = dictGet d k' := by
  split_ifs with hc
  · rw [dictGet_dictSet, if_neg h]
  · rfl

theorem coreDict_get_et (req : NetRequest) (st : St) (network : NetworkRow) (nid : Nat) :
    dictGet (coreDict req st network nid) kEt = some (etCsv st req.nwid) := by
  unfold coreDict
  dsimp only
  rw [dictGet_ite_dictSet_ne _ _ _ _ (by decide), dictGet_ite_dictSet_ne _ _ _ _ (by decide),
      dictGet_ite_dictSet_ne _ _ _ _ (by decide), dictGet_ite_dictSet_ne _ _ _ _ (by decide),
      dictGet_dictSet_same]

theorem coreDict_get_ab (req : NetRequest) (st : St) (network : NetworkRow) (nid : Nat) :
    dictGet (coreDict req st network nid) kAb
      = (if (abCsv st req.nwid).length > 0 then some (abCsv st req.nwid) else none) := by
  unfold coreDict
  dsimp only
  rw [dictGet_ite_dictSet_ne _ _ _ _ (by decide), dictGet_ite_dictSet_ne _ _ _ _ (by decide)]
  by_cases h : (abCsv st req.nwid).length > 0
  · rw [if_pos h, if_pos h, dictGet_dictSet_same]
  · rw [if_neg h, if_neg h, dictGet_ite_dictSet_ne _ _ _ _ (by decide),
        dictGet_dictSet_ne _ _ _ _ (by decide), dictGet_dictSet_ne _ _ _ _ (by decide),
        dictGet_dictSet_ne _ _ _ _ (by decide), dictGet_dictSet_ne _ _ _ _ (by decide),
        dictGet_dictSet_ne _ _ _ _ (by decide), dictGet_dictSet_ne _ _ _ _ (by decide),
        dictGet_dictSet_ne _ _ _ _ (by decide), dictGet_dictSet_ne _ _ _ _ (by decide),
        dictGet_dictSet_ne _ _ _ _ (by decide)]
    rfl

theorem coreDict_get_rl (req : NetRequest) (st : St) (network : NetworkRow) (nid : Nat) :
    dictGet (coreDict req st network nid) kRl
      = (if (rlCsv st req.nwid).length > 0 then some (rlCsv st req.nwid) else none) := by
  unfold coreDict
  dsimp only
  rw [dictGet_ite_dictSet_ne _ _ _ _ (by decide)]
  by_cases h : (rlCsv st req.nwid).length > 0
  · rw [if_pos h, if_pos h, dictGet_dictSet_same]
  · rw [if_neg h, if_neg h, dictGet_ite_dictSet_ne _ _ _ _ (by decide),
        dictGet_ite_dictSet_ne _ _ _ _ (by decide),
        dictGet_dictSet_ne _ _ _ _ (by decide), dictGet_dictSet_ne _ _ _ _ (by decide),
        dictGet_dictSet_ne _ _ _ _ (by decide), dictGet_dictSet_ne _ _ _ _ (by decide),
        dictGet_dictSet_ne _ _ _ _ (by decide), dictGet_dictSet_ne _ _ _ _ (by decide),
        dictGet_dictSet_ne _ _ _ _ (by decide), dictGet_dictSet_ne _ _ _ _ (by decide),
        dictGet_dictSet_ne _ _ _ _ (by decide)]
    rfl

theorem coreDict_get_gw (req : NetRequest) (st : St) (network : NetworkRow) (nid : Nat) :
    dictGet (coreDict req st network nid) kGw
      = (if (gwCsv st req.nwid).length > 0 then some (gwCsv st req.nwid) else none) := by
  unfold coreDict
  dsimp only
  by_cases h : (gwCsv st req.nwid).length > 0
  · rw [if_pos h, if_pos h, dictGet_dictSet_same]
  · rw [if_neg h, if_neg h, dictGet_ite_dictSet_ne _ _ _ _ (by decide),
        dictGet_ite_dictSet_ne _ _ _ _ (by decide), dictGet_ite_dictSet_ne _ _ _ _ (by decide),
        dictGet_dictSet_ne _ _ _ _ (by decide), dictGet_dictSet_ne _ _ _ _ (by decide),
        dictGet_dictSet_ne _ _ _ _ (by decide), dictGet_dictSet_ne _ _ _ _ (by decide),
        dictGet_dictSet_ne _ _ _ _ (by decide), dictGet_dictSet_ne _ _ _ _ (by decide),
        dictGet_dictSet_ne _ _ _ _ (by decide), dictGet_dictSet_ne _ _ _ _ (by decide),
        dictGet_dictSet_ne _ _ _ _ (by decide)]
    rfl

theorem coreDict_get_other (req : NetRequest) (st : St) (network : NetworkRow) (nid : Nat)
    (k : String) (h1 : k ≠ kGw) (h2 : k ≠ kRl) (h3 : k ≠ kAb) (h4 : k ≠ kMl) (h5 : k ≠ kEt)
    (h6 : k ≠ kPb) (h7 : k ≠ kEb) (h8 : k ≠ kN) (h9 : k ≠ kP) (h10 : k ≠ kId) (h11 : k ≠ kNwid)
    (h12 : k ≠ kR) (h13 : k ≠ kTs) :
    dictGet (coreDict req st network nid) k = none := by
  unfold coreDict
  dsimp only
  rw [dictGet_ite_dictSet_ne _ _ _ _ h1, dictGet_ite_dictSet_ne _ _ _ _ h2,
      dictGet_ite_dictSet_ne _ _ _ _ h3, dictGet_ite_dictSet_ne _ _ _ _ h4,
      dictGet_dictSet_ne _ _ _ _ h5, dictGet_dictSet_ne _ _ _ _ h6,
      dictGet_dictSet_ne _ _ _ _ h7, dictGet_dictSet_ne _ _ _ _ h8,
      dictGet_dictSet_ne _ _ _ _ h9, dictGet_dictSet_ne _ _ _ _ h10,
      dictGet_dictSet_ne _ _ _ _ h11, dictGet_dictSet_ne _ _ _ _ h12,
      dictGet_dictSet_ne _ _ _ _ h13]
  rfl

theorem v4sDict_get_ne (req : NetRequest) (st : St) (network : NetworkRow) (nid : Nat)
    (k : String) (h : k ≠ kV4s) :
    dictGet (v4sDict req st network nid) k = dictGet (coreDict req st network nid) k := by
  unfold v4sDict
  exact dictGet_ite_dictSet_ne _ _ _ _ h

theorem v4sDict_get_v4s (req : NetRequest) (st : St) (network : NetworkRow) (nid : Nat) :
    dictGet (v4sDict req st network nid) kV4s
      = (if (network.v4AssignMode == "zt" && (v4Step req st network nid).1.length > 0) = true
         then some (v4Step req st network nid).1 else none) := by
  unfold v4sDict
  by_cases h : (network.v4AssignMode == "zt" && (v4Step req st network nid).1.length > 0) = true
  · rw [if_pos h, if_pos h, dictGet_dictSet_same]
  · rw [if_neg h, if_neg h,
        coreDict_get_other req st network nid kV4s (by decide) (by decide) (by decide) (by decide)
          (by decide) (by decide) (by decide) (by decide) (by decide) (by decide) (by decide)
          (by decide) (by decide)]

/-! ### Result-path inversion lemmas -/

theorem configPrelude_error_ne_ok (req : NetRequest) (st : St) (r : ResultCode × Dict × St)
    (h : configPrelude req st = .error r) : r.1 ≠ ResultCode.OK := by
  unfold configPrelude at h
  split at h
  · cases h; intro hc; cases hc
  split at h
  · cases h; intro hc; cases hc
  split at h
  · cases h; intro hc; cases hc
  rename_i st1 hst1
  split at h
  · cases h; intro hc; cases hc
  rename_i network hnet
  rcases hm : findMember st1 req.nwid req.identity.pub.addr with _ | m
  · simp only [hm] at h
    split at h
    · cases h; intro hc; cases hc
    split at h
    · cases h; intro hc; cases hc
    · cases h
  · simp only [hm] at h
    split at h
    · cases h; intro hc; cases hc
    split at h
    · cases h; intro hc; cases hc
    · cases h

theorem configPrelude_ok_member (req : NetRequest) (st st2 : St) (network : NetworkRow)
    (member : MemberRow) (hp : configPrelude req st = .ok (st2, network, member)) :
    member.nodeId = req.identity.pub.addr := by
  unfold configPrelude at hp
  split at hp
  · cases hp
  split at hp
  · cases hp
  split at hp
  · cases hp
  rename_i st1 hst1
  split at hp
  · cases hp
  rename_i network0 hnet
  rcases hm : findMember st1 req.nwid req.identity.pub.addr with _ | m
  · simp only [hm] at hp
    split at hp
    · cases hp
    split at hp
    · cases hp
    · cases hp
      rfl
  · simp only [hm] at hp
    split at hp
    · cases hp
    split at hp
    · cases hp
    · cases hp
      have hpm := List.find?_some hm
      simp only [Bool.and_eq_true, beq_iff_eq] at hpm
      exact hpm.2

theorem finishSign_run_ok (req : NetRequest) (stX : St) (dX : Dict) (d : Dict) (st' : St)
    (h : finishSign req stX dX = (ResultCode.OK, d, st')) :
    req.dictSignOk = true ∧ d = dictSign dX req.signingId req.now ∧ st' = stX := by
  unfold finishSign at h
  split at h
  · cases h
    exact ⟨by assumption, rfl, rfl⟩
  · cases h

/-- C6 witness: a first config request on the public network creates the
member authorized. -/
theorem C6_member_creation_defaults_witness :
    findMember exStC exNw 0xcccccccccc = none ∧
    findMember (doNetworkConfigRequest exReqC exStC).2.2 exNw 0xcccccccccc
      = some ⟨exNw, 0xcccccccccc, true, false⟩ :=
  ⟨rfl, by
    have h := (C6_member_creation_defaults).1 exReqC exStC
      ⟨0xcccccccccc, some ⟨0xcccccccccc, 5⟩, "", 5, 5⟩
      ⟨exNw, "demo", false, true, false, "zt", "none", 32, 1, 2⟩
      rfl (by decide) rfl rfl rfl rfl
    simpa using h⟩

/-- C7 (corrected): on an OK config response the optional collection keys
ab, rl, gw and v4s are never present with an empty value — they are set only
when their CSV is nonempty and so are omitted for empty collections — but the
et key is written unconditionally, so it is present even when the rule table
yields an empty ethertype list. -/
theorem C7_collection_key_omission (req : NetRequest) (st : St) (d : Dict) (st' : St)
    (h : doNetworkConfigRequest req st = (ResultCode.OK, d, st')) :
    dictGet d kEt ≠ none ∧
    (∀ s, dictGet d kAb = some s → s ≠ "") ∧
    (∀ s, dictGet d kRl = some s → s ≠ "") ∧
    (∀ s, dictGet d kGw = some s → s ≠ "") ∧
    (∀ s, dictGet d kV4s = some s → s ≠ "") := by
  unfold doNetworkConfigRequest at h
  cases hpre : configPrelude req st with
  | error r =>
      simp only [hpre] at h
      exact absurd (show r.1 = ResultCode.OK by rw [h]) (configPrelude_error_ne_ok req st r hpre)
  | ok t =>
      obtain ⟨st2, network, member⟩ := t
      simp only [hpre] at h
      have hkey : ∀ k, k ≠ kSig → k ≠ kCom →
          dictGet d k = dictGet (v4sDict req st2 network member.nodeId) k := by
        unfold buildAndSign at h
        split at h
        · split at h
          · obtain ⟨hds, hd, hst⟩ := finishSign_run_ok _ _ _ _ _ h
            intro k h1 h2
            rw [hd, dictGet_dictSign _ _ _ _ h1, dictGet_dictSet_ne _ _ _ _ h2]
          · simp at h
        · obtain ⟨hds, hd, hst⟩ := finishSign_run_ok _ _ _ _ _ h
          intro k h1 _
          rw [hd, dictGet_dictSign _ _ _ _ h1]
      refine ⟨?_, ?_, ?_, ?_, ?_⟩
      · rw [hkey kEt (by decide) (by decide), v4sDict_get_ne _ _ _ _ _ (by decide),
            coreDict_get_et]
        simp
      · intro s hs
        rw [hkey kAb (by decide) (by decide), v4sDict_get_ne _ _ _ _ _ (by decide),
            coreDict_get_ab] at hs
        by_cases hab : (abCsv st2 req.nwid).length > 0
        · rw [if_pos hab] at hs
          have he := Option.some_inj.mp hs
          intro hemp
          rw [he, hemp] at hab
          exact absurd hab (by decide)
        · rw [if_neg hab] at hs
          cases hs
      · intro s hs
        rw [hkey kRl (by decide) (by decide), v4sDict_get_ne _ _ _ _ _ (by decide),
            coreDict_get_rl] at hs
        by_cases hrl : (rlCsv st2 req.nwid).length > 0
        · rw [if_pos hrl] at hs
          have he := Option.some_inj.mp hs
          intro hemp
          rw [he, hemp] at hrl
          exact absurd hrl (by decide)
        · rw [if_neg hrl] at hs
          cases hs
      · intro s hs
        rw [hkey kGw (by decide) (by decide), v4sDict_get_ne _ _ _ _ _ (by decide),
            coreDict_get_gw] at hs
        by_cases hgw : (gwCsv st2 req.nwid).length > 0
        · rw [if_pos hgw] at hs
          have he := Option.some_inj.mp hs
          intro hemp
          rw [he, hemp] at hgw
          exact absurd hgw (by decide)
        · rw [if_neg hgw] at hs
          cases hs
      · intro s hs
        rw [hkey kV4s (by decide) (by decide), v4sDict_get_v4s] at hs
        by_cases hv : (network.v4AssignMode == "zt"
            && (v4Step req st2 network member.nodeId).1.length > 0) = true
        · rw [if_pos hv] at hs
          simp only [Bool.and_eq_true, decide_eq_true_eq] at hv
          have hlen := hv.2
          have he := Option.some_inj.mp hs
          intro hemp
          rw [he, hemp] at hlen
          exact absurd hlen (by decide)
        · rw [if_neg hv] at hs
          cases hs

/-- C7 counterexample: on the demo network the rule table produces an empty
ethertype CSV, yet the OK response carries the et key (with an empty value) —
the code sets et unconditionally, contradicting the claim that every
collection key is omitted when its collection is empty. -/
theorem C7_et_key_present_when_empty :
    (doNetworkConfigRequest exReq exSt).1 = ResultCode.OK ∧
    etCsv exSt exNw = "" ∧
    dictGet (doNetworkConfigRequest exReq exSt).2.1 kEt = some "" := by
  refine ⟨by decide, rfl, by decide⟩

/-- C7 witness: the amended theorem applied to the concrete OK request. -/
theorem C7_collection_key_omission_witness :
    dictGet (doNetworkConfigRequest exReq exSt).2.1 kEt ≠ none ∧
    (∀ s, dictGet (doNetworkConfigRequest exReq exSt).2.1 kAb = some s → s ≠ "") ∧
    (∀ s, dictGet (doNetworkConfigRequest exReq exSt).2.1 kRl = some s → s ≠ "") ∧
    (∀ s, dictGet (doNetworkConfigRequest exReq exSt).2.1 kGw = some s → s ≠ "") ∧
    (∀ s, dictGet (doNetworkConfigRequest exReq exSt).2.1 kV4s = some s → s ≠ "") :=
  C7_collection_key_omission exReq exSt (doNetworkConfigRequest exReq exSt).2.1
    (doNetworkConfigRequest exReq exSt).2.2 (by decide)

/-- C8: past the prelude, an OK response carries the com key exactly when the
network is private, holding the COM parametrized by (network.revision,
maxDelta, nwid, requester address) and stamped with the signer's address, and
every OK dictionary carries the signature key; if COM signing fails on a
private network, or dictionary signing fails, the result is
INTERNAL_SERVER_ERROR with an error key. -/
theorem C8_com_issuance (req : NetRequest) (st st2 : St) (network : NetworkRow)
    (member : MemberRow) (hp : configPrelude req st = Except.ok (st2, network, member)) :
    ((doNetworkConfigRequest req st).1 = ResultCode.OK →
      ((dictGet (doNetworkConfigRequest req st).2.1 kCom ≠ none ↔ network.isPrivate = true) ∧
       (network.isPrivate = true →
         dictGet (doNetworkConfigRequest req st).2.1 kCom
           = some (comToString ⟨network.revision, comMaxDelta, req.nwid,
               req.identity.pub.addr, req.signingId.pub.addr⟩)) ∧
       dictGet (doNetworkConfigRequest req st).2.1 kSig ≠ none)) ∧
    (network.isPrivate = true → req.comSignOk = false →
      (doNetworkConfigRequest req st).1 = ResultCode.INTERNAL_SERVER_ERROR ∧
      dictGet (doNetworkConfigRequest req st).2.1 "error" ≠ none) ∧
    ((network.isPrivate = false ∨ req.comSignOk = true) → req.dictSignOk = false →
      (doNetworkConfigRequest req st).1 = ResultCode.INTERNAL_SERVER_ERROR ∧
      dictGet (doNetworkConfigRequest req st).2.1 "error" ≠ none) := by
  have hmem := configPrelude_ok_member req st st2 network member hp
  unfold doNetworkConfigRequest
  simp only [hp]
  unfold buildAndSign
  by_cases hpriv : network.isPrivate = true
  · rw [if_pos hpriv]
    by_cases hcs : req.comSignOk = true
    · rw [if_pos hcs]
      unfold finishSign
      by_cases hds : req.dictSignOk = true
      · rw [if_pos hds]
        refine ⟨?_, ?_, ?_⟩
        · intro _
          refine ⟨?_, ?_, ?_⟩
          · constructor
            · intro _
              exact hpriv
            · intro _
              rw [dictGet_dictSign _ _ _ _ (by decide), dictGet_dictSet_same]
              simp
          · intro _
            rw [dictGet_dictSign _ _ _ _ (by decide), dictGet_dictSet_same]
            unfold comOf
            rw [hmem]
          · dsimp only
            exact dictGet_dictSign_sig _ _ _
        · intro _ hc
          cases hcs.symm.trans hc
        · intro _ hd
          cases hds.symm.trans hd
      · rw [if_neg hds]
        refine ⟨?_, ?_, ?_⟩
        · intro hok
          dsimp only at hok
          cases hok
        · intro _ hc
          cases hcs.symm.trans hc
        · intro _ _
          refine ⟨rfl, ?_⟩
          dsimp only
          rw [dictGet_dictSet_same]
          simp
    · rw [if_neg hcs]
      refine ⟨?_, ?_, ?_⟩
      · intro hok
        dsimp only at hok
        cases hok
      · intro _ _
        refine ⟨rfl, ?_⟩
        dsimp only
        rw [dictGet_dictSet_same]
        simp
      · intro hor _
        rcases hor with hf | ht
        · cases hpriv.symm.trans hf
        · exact absurd ht hcs
  · rw [if_neg hpriv]
    unfold finishSign
    by_cases hds : req.dictSignOk = true
    · rw [if_pos hds]
      refine ⟨?_, ?_, ?_⟩
      · intro _
        refine ⟨?_, ?_, ?_⟩
        · constructor
          · intro hcom
            exfalso
            apply hcom
            rw [dictGet_dictSign _ _ _ _ (by decide), v4sDict_get_ne _ _ _ _ _ (by decide),
                coreDict_get_other req st2 network member.nodeId kCom (by decide) (by decide)
                  (by decide) (by decide) (by decide) (by decide) (by decide) (by decide)
                  (by decide) (by decide) (by decide) (by decide) (by decide)]
          · intro hT
            exact absurd hT hpriv
        · intro hT
          exact absurd hT hpriv
        · dsimp only
          exact dictGet_dictSign_sig _ _ _
      · intro hT _
        exact absurd hT hpriv
      · intro _ hd
        cases hds.symm.trans hd
    · rw [if_neg hds]
      refine ⟨?_, ?_, ?_⟩
      · intro hok
        dsimp only at hok
        cases hok
      · intro hT _
        exact absurd hT hpriv
      · intro _ _
        refine ⟨rfl, ?_⟩
        dsimp only
        rw [dictGet_dictSet_same]
        simp

/-- C8 witness: the concrete public-network request returns OK, is signed,
and carries no com key. -/
theorem C8_com_issuance_witness :
    (dictGet (doNetworkConfigRequest exReq exSt).2.1 kCom ≠ none
        ↔ (⟨exNw, "demo", false, true, false, "zt", "none", 32, 1, 2⟩ : NetworkRow).isPrivate
            = true) ∧
    ((⟨exNw, "demo", false, true, false, "zt", "none", 32, 1, 2⟩ : NetworkRow).isPrivate = true →
      dictGet (doNetworkConfigRequest exReq exSt).2.1 kCom
        = some (comToString ⟨(⟨exNw, "demo", false, true, false, "zt", "none", 32, 1, 2⟩
            : NetworkRow).revision, comMaxDelta, exReq.nwid,
            exReq.identity.pub.addr, exReq.signingId.pub.addr⟩)) ∧
    dictGet (doNetworkConfigRequest exReq exSt).2.1 kSig ≠ none :=
  (C8_com_issuance exReq exSt
    { exSt with nodes := exSt.nodes.map (nodeTouch exReq) }
    ⟨exNw, "demo", false, true, false, "zt", "none", 32, 1, 2⟩
    ⟨exNw, 0xaaaaaaaaaa, true, false⟩ rfl).1 (by decide)

/-! ### Collection-rewrite lemmas -/

theorem filter_self_append_rows {α} (p : α → Bool) (l m : List α)
    (hm : ∀ a ∈ m, p a = false) : (l.filter p ++ m).filter p = l.filter p := by
  rw [List.filter_append]
  have h1 : (l.filter p).filter p = l.filter p :=
    List.filter_eq_self.mpr (fun a ha => List.of_mem_filter ha)
  have h2 : m.filter p = [] :=
    List.filter_eq_nil_iff.mpr (fun a ha hp => by rw [hm a ha] at hp; cases hp)
  rw [h1, h2, List.append_nil]

theorem gatewaysFold_rows (nwid : Nat) : ∀ (items : List JVal) (s : St),
    (items.foldl (gatewayStep nwid) s).gateways
      = s.gateways ++ items.filterMap (gatewayItemRow nwid) := by
  intro items
  induction items with
  | nil =>
      intro s
      simp
  | cons it rest ih =>
      intro s
      rw [List.foldl_cons, ih, List.filterMap_cons]
      cases it with
      | jstr str =>
          simp only [gatewayStep, gatewayItemRow]
          split_ifs with hc
          · simp
          · simp
      | jint n => rfl
      | jbool b => rfl
      | jarr xs => rfl
      | jobj kvs => rfl
      | jnull => rfl

theorem rulesFold_rows (nwid : Nat) : ∀ (items : List JVal) (s : St),
    (items.foldl (ruleStep nwid) s).rules
      = s.rules ++ items.filterMap (ruleRowOfItem nwid) := by
  intro items
  induction items with
  | nil =>
      intro s
      simp
  | cons it rest ih =>
      intro s
      rw [List.foldl_cons, ih, List.filterMap_cons]
      cases hr : ruleRowOfItem nwid it with
      | some row =>
          simp only [ruleStep, hr]
          simp
      | none =>
          simp only [ruleStep, hr]

theorem routesGo_rows (nwid : Nat) : ∀ (items : List JVal) (st : St) (rset : List InetAddr),
    items ≠ [] →
    (routesGo nwid st rset items).routes
      = st.routes.filter (fun rr => !(rr.networkId == nwid))
          ++ (items.foldl routeSetStep rset).map (routeRowOf nwid (lastRouteNodeId items)) := by
  intro items
  induction items with
  | nil =>
      intro st rset h
      exact absurd rfl h
  | cons it rest ih =>
      intro st rset _
      cases rest with
      | nil => rfl
      | cons b l =>
          rw [show routesGo nwid st rset (it :: b :: l)
                = routesGo nwid
                    { st with routes := st.routes.filter (fun rr => !(rr.networkId == nwid)) ++
                        (routeSetStep rset it).map (routeRowOf nwid (routeItemParse it).1) }
                    (routeSetStep rset it) (b :: l) from rfl,
              ih _ _ (List.cons_ne_nil b l)]
          rw [show ({ st with routes := st.routes.filter (fun rr => !(rr.networkId == nwid)) ++
                (routeSetStep rset it).map (routeRowOf nwid (routeItemParse it).1) } : St).routes
              = st.routes.filter (fun rr => !(rr.networkId == nwid)) ++
                (routeSetStep rset it).map (routeRowOf nwid (routeItemParse it).1) from rfl]
          rw [filter_self_append_rows (fun rr => !(rr.networkId == nwid)) st.routes
                ((routeSetStep rset it).map (routeRowOf nwid (routeItemParse it).1))
                (by
                  intro r hr
                  obtain ⟨a, _, rfl⟩ := List.mem_map.mp hr
                  simp [routeRowOf])]
          rw [show lastRouteNodeId (it :: b :: l) = lastRouteNodeId (b :: l) from by
                unfold lastRouteNodeId
                rw [List.getLast?_cons_cons]]
          rfl

theorem poolsGo_rows (nwid : Nat) :
    ∀ (items : List JVal) (st : St) (pset : List (InetAddr × InetAddr × InetAddr)),
    items ≠ [] →
    (poolsGo nwid st pset items).pools
      = st.pools.filter (fun p => !(p.networkId == nwid))
          ++ (items.foldl poolSetStep pset).map (poolRowOf nwid) := by
  intro items
  induction items with
  | nil =>
      intro st pset h
      exact absurd rfl h
  | cons it rest ih =>
      intro st pset _
      cases rest with
      | nil => rfl
      | cons b l =>
          rw [show poolsGo nwid st pset (it :: b :: l)
                = poolsGo nwid
                    { st with pools := st.pools.filter (fun p => !(p.networkId == nwid)) ++
                        (poolSetStep pset it).map (poolRowOf nwid) }
                    (poolSetStep pset it) (b :: l) from rfl,
              ih _ _ (List.cons_ne_nil b l)]
          rw [show ({ st with pools := st.pools.filter (fun p => !(p.networkId == nwid)) ++
                (poolSetStep pset it).map (poolRowOf nwid) } : St).pools
              = st.pools.filter (fun p => !(p.networkId == nwid)) ++
                (poolSetStep pset it).map (poolRowOf nwid) from rfl]
          rw [filter_self_append_rows (fun p => !(p.networkId == nwid)) st.pools
                ((poolSetStep pset it).map (poolRowOf nwid))
                (by
                  intro r hr
                  obtain ⟨a, _, rfl⟩ := List.mem_map.mp hr
                  simp [poolRowOf])]
          rfl

theorem handleNetworkPOST_single_collections (st : St) (nwid : Nat) (k : String) (v : JVal)
    (now : Nat) :
    ∃ st0 : St,
      st0.relays = st.relays ∧ st0.routes = st.routes ∧ st0.gateways = st.gateways ∧
      st0.pools = st.pools ∧ st0.rules = st.rules ∧
      (handleNetworkPOST st nwid (some (JVal.jobj [(k, v)])) now).2.relays
        = (netFieldStep nwid st0 (k, v)).relays ∧
      (handleNetworkPOST st nwid (some (JVal.jobj [(k, v)])) now).2.routes
        = (netFieldStep nwid st0 (k, v)).routes ∧
      (handleNetworkPOST st nwid (some (JVal.jobj [(k, v)])) now).2.gateways
        = (netFieldStep nwid st0 (k, v)).gateways ∧
      (handleNetworkPOST st nwid (some (JVal.jobj [(k, v)])) now).2.pools
        = (netFieldStep nwid st0 (k, v)).pools ∧
      (handleNetworkPOST st nwid (some (JVal.jobj [(k, v)])) now).2.rules
        = (netFieldStep nwid st0 (k, v)).rules := by
  unfold handleNetworkPOST
  cases hfn : findNetwork st nwid with
  | some n =>
      refine ⟨st, rfl, rfl, rfl, rfl, rfl, ?_, ?_, ?_, ?_, ?_⟩ <;> simp only [hfn] <;> rfl
  | none =>
      refine ⟨{ st with networks := st.networks ++ [freshNetwork nwid now] },
        rfl, rfl, rfl, rfl, rfl, ?_, ?_, ?_, ?_, ?_⟩ <;> simp only [hfn] <;> rfl

/-- C5 (corrected): a network POST rewrites relays, gateways and rules as a
single delete-all-for-network followed by inserting each valid posted entry,
but the routes and ipAssignmentPools handlers run the delete and the insert
loop inside the per-item loop: a POST with an empty array deletes nothing
(existing rows survive), and a nonempty array ends as delete-all plus the
accumulated set, with every route row bearing the nodeId parsed from the
last posted item rather than its own entry's. -/
theorem C5_collection_rewrite (st : St) (nwid : Nat) (items : List JVal) (now : Nat)
    (hNE : items ≠ []) :
    (handleNetworkPOST st nwid (some (JVal.jobj [("relays", JVal.jarr items)])) now).2.relays
      = st.relays.filter (fun r => !(r.networkId == nwid))
          ++ (relayMapOf items).map (relayRowOf nwid) ∧
    (handleNetworkPOST st nwid (some (JVal.jobj [("gateways", JVal.jarr items)])) now).2.gateways
      = st.gateways.filter (fun g => !(g.networkId == nwid))
          ++ items.filterMap (gatewayItemRow nwid) ∧
    (handleNetworkPOST st nwid (some (JVal.jobj [("rules", JVal.jarr items)])) now).2.rules
      = st.rules.filter (fun r => !(r.networkId == nwid))
          ++ items.filterMap (ruleRowOfItem nwid) ∧
    (handleNetworkPOST st nwid (some (JVal.jobj [("routes", JVal.jarr [])])) now).2.routes
      = st.routes ∧
    (handleNetworkPOST st nwid
        (some (JVal.jobj [("ipAssignmentPools", JVal.jarr [])])) now).2.pools
      = st.pools ∧
    (handleNetworkPOST st nwid (some (JVal.jobj [("routes", JVal.jarr items)])) now).2.routes
      = st.routes.filter (fun rr => !(rr.networkId == nwid))
          ++ (items.foldl routeSetStep []).map (routeRowOf nwid (lastRouteNodeId items)) ∧
    (handleNetworkPOST st nwid
        (some (JVal.jobj [("ipAssignmentPools", JVal.jarr items)])) now).2.pools
      = st.pools.filter (fun p => !(p.networkId == nwid))
          ++ (items.foldl poolSetStep []).map (poolRowOf nwid) := by
  obtain ⟨s1, h1rel, _, _, _, _, e1rel, _, _, _, _⟩ :=
    handleNetworkPOST_single_collections st nwid "relays" (JVal.jarr items) now
  obtain ⟨s2, _, _, h2gw, _, _, _, _, e2gw, _, _⟩ :=
    handleNetworkPOST_single_collections st nwid "gateways" (JVal.jarr items) now
  obtain ⟨s3, _, _, _, _, h3ru, _, _, _, _, e3ru⟩ :=
    handleNetworkPOST_single_collections st nwid "rules" (JVal.jarr items) now
  obtain ⟨s4, _, h4rou, _, _, _, _, e4rou, _, _, _⟩ :=
    handleNetworkPOST_single_collections st nwid "routes" (JVal.jarr []) now
  obtain ⟨s5, _, _, _, h5po, _, _, _, _, e5po, _⟩ :=
    handleNetworkPOST_single_collections st nwid "ipAssignmentPools" (JVal.jarr []) now
  obtain ⟨s6, _, h6rou, _, _, _, _, e6rou, _, _, _⟩ :=
    handleNetworkPOST_single_collections st nwid "routes" (JVal.jarr items) now
  obtain ⟨s7, _, _, _, h7po, _, _, _, _, e7po, _⟩ :=
    handleNetworkPOST_single_collections st nwid "ipAssignmentPools" (JVal.jarr items) now
  refine ⟨?_, ?_, ?_, ?_, ?_, ?_, ?_⟩
  · rw [e1rel,
        show (netFieldStep nwid s1 ("relays", JVal.jarr items)).relays
          = s1.relays.filter (fun r => !(r.networkId == nwid))
              ++ (relayMapOf items).map (relayRowOf nwid) from rfl, h1rel]
  · rw [e2gw,
        show (netFieldStep nwid s2 ("gateways", JVal.jarr items)).gateways
          = (items.foldl (gatewayStep nwid) (deleteGatewaysFor s2 nwid)).gateways from rfl,
        gatewaysFold_rows nwid items (deleteGatewaysFor s2 nwid),
        show (deleteGatewaysFor s2 nwid).gateways
          = s2.gateways.filter (fun g => !(g.networkId == nwid)) from rfl, h2gw]
  · rw [e3ru,
        show (netFieldStep nwid s3 ("rules", JVal.jarr items)).rules
          = (items.foldl (ruleStep nwid) (deleteRulesFor s3 nwid)).rules from rfl,
        rulesFold_rows nwid items (deleteRulesFor s3 nwid),
        show (deleteRulesFor s3 nwid).rules
          = s3.rules.filter (fun r => !(r.networkId == nwid)) from rfl, h3ru]
  · rw [e4rou,
        show (netFieldStep nwid s4 ("routes", JVal.jarr [])).routes = s4.routes from rfl, h4rou]
  · rw [e5po,
        show (netFieldStep nwid s5 ("ipAssignmentPools", JVal.jarr [])).pools = s5.pools from rfl,
        h5po]
  · rw [e6rou,
        show (netFieldStep nwid s6 ("routes", JVal.jarr items)).routes
          = (routesGo nwid s6 [] items).routes from rfl,
        routesGo_rows nwid items s6 [] hNE, h6rou]
  · rw [e7po,
        show (netFieldStep nwid s7 ("ipAssignmentPools", JVal.jarr items)).pools
          = (poolsGo nwid s7 [] items).pools from rfl,
        poolsGo_rows nwid items s7 [] hNE, h7po]

/-- C5 counterexample: POSTing an empty routes array deletes nothing — the
stale route row for the network survives — whereas the claimed single
delete-all-then-insert-each discipline would leave no route rows for it. -/
theorem C5_empty_routes_not_delete_all :
    (handleNetworkPOST exSt exNw (some (JVal.jobj [("routes", JVal.jarr [])])) 50).2.routes
      = exSt.routes ∧
    exSt.routes ≠ [] ∧
    (deleteRoutesFor exSt exNw).routes = [] := by
  refine ⟨rfl, ?_, rfl⟩
  intro h
  simp [exSt] at h

/-- C5 witness: the amended theorem applied to the demo state and a one-item
array whose entry parses to nothing. -/
theorem C5_collection_rewrite_witness :
    (handleNetworkPOST exSt exNw
        (some (JVal.jobj [("relays", JVal.jarr [JVal.jnull])])) 50).2.relays
      = exSt.relays.filter (fun r => !(r.networkId == exNw))
          ++ (relayMapOf [JVal.jnull]).map (relayRowOf exNw) ∧
    (handleNetworkPOST exSt exNw
        (some (JVal.jobj [("gateways", JVal.jarr [JVal.jnull])])) 50).2.gateways
      = exSt.gateways.filter (fun g => !(g.networkId == exNw))
          ++ [JVal.jnull].filterMap (gatewayItemRow exNw) ∧
    (handleNetworkPOST exSt exNw
        (some (JVal.jobj [("rules", JVal.jarr [JVal.jnull])])) 50).2.rules
      = exSt.rules.filter (fun r => !(r.networkId == exNw))
          ++ [JVal.jnull].filterMap (ruleRowOfItem exNw) ∧
    (handleNetworkPOST exSt exNw
        (some (JVal.jobj [("routes", JVal.jarr [])])) 50).2.routes
      = exSt.routes ∧
    (handleNetworkPOST exSt exNw
        (some (JVal.jobj [("ipAssignmentPools", JVal.jarr [])])) 50).2.pools
      = exSt.pools ∧
    (handleNetworkPOST exSt exNw
        (some (JVal.jobj [("routes", JVal.jarr [JVal.jnull])])) 50).2.routes
      = exSt.routes.filter (fun rr => !(rr.networkId == exNw))
          ++ ([JVal.jnull].foldl routeSetStep []).map
              (routeRowOf exNw (lastRouteNodeId [JVal.jnull])) ∧
    (handleNetworkPOST exSt exNw
        (some (JVal.jobj [("ipAssignmentPools", JVal.jarr [JVal.jnull])])) 50).2.pools
      = exSt.pools.filter (fun p => !(p.networkId == exNw))
          ++ ([JVal.jnull].foldl poolSetStep []).map (poolRowOf exNw) :=
  C5_collection_rewrite exSt exNw [JVal.jnull] 50 (List.cons_ne_nil _ _)

/-! ### Relay-map lemmas -/

theorem mem_assocSet (k : Nat) (v : String) :
    ∀ (m : List (Nat × String)) (x : Nat × String),
    x ∈ assocSet k v m → x = (k, v) ∨ x ∈ m := by
  intro m
  induction m with
  | nil =>
      intro x hx
      exact Or.inl (List.mem_singleton.mp hx)
  | cons e0 rest ih =>
      obtain ⟨k0, v0⟩ := e0
      intro x hx
      unfold assocSet at hx
      split_ifs at hx with h1 h2
      · rcases List.mem_cons.mp hx with h | h
        · exact Or.inl h
        · exact Or.inr h
      · rcases List.mem_cons.mp hx with h | h
        · exact Or.inl h
        · exact Or.inr (List.mem_cons_of_mem _ h)
      · rcases List.mem_cons.mp hx with h | h
        · exact Or.inr (by rw [h]; exact List.mem_cons_self _ _)
        · rcases ih x h with h' | h'
          · exact Or.inl h'
          · exact Or.inr (List.mem_cons_of_mem _ h')

theorem assocSet_sorted (k : Nat) (v : String) :
    ∀ m : List (Nat × String), m.Pairwise (fun e1 e2 => e1.1 < e2.1) →
    (assocSet k v m).Pairwise (fun e1 e2 => e1.1 < e2.1) := by
  intro m
  induction m with
  | nil =>
      intro _
      exact List.pairwise_singleton _ _
  | cons e0 rest ih =>
      obtain ⟨k0, v0⟩ := e0
      intro hp
      rw [List.pairwise_cons] at hp
      obtain ⟨hhead, htail⟩ := hp
      unfold assocSet
      split_ifs with h1 h2
      · refine List.Pairwise.cons ?_ (List.Pairwise.cons hhead htail)
        intro e' he'
        rcases List.mem_cons.mp he' with h | h
        · rw [h]
          exact h1
        · exact Nat.lt_trans h1 (hhead e' h)
      · have hk : k = k0 := beq_iff_eq.mp h2
        refine List.Pairwise.cons ?_ htail
        intro e' he'
        show k < e'.1
        rw [hk]
        exact hhead e' he'
      · refine List.Pairwise.cons ?_ (ih htail)
        intro e' he'
        rcases mem_assocSet k v rest e' he' with h | h
        · rw [h]
          show k0 < k
          have hkk : k ≠ k0 := fun he => h2 (beq_iff_eq.mpr he)
          omega
        · exact hhead e' h

theorem relayMapGo_sorted :
    ∀ (items : List JVal) (m : List (Nat × String)),
    m.Pairwise (fun e1 e2 => e1.1 < e2.1) →
    (relayMapGo m items).Pairwise (fun e1 e2 => e1.1 < e2.1) := by
  intro items
  induction items with
  | nil =>
      intro m hm
      exact hm
  | cons it rest ih =>
      intro m hm
      cases hp : relayItemParse it with
      | none =>
          show (relayMapGo (match relayItemParse it with
            | some e => assocSet e.1 e.2 m | none => m) rest).Pairwise _
          simp only [hp]
          exact ih m hm
      | some e =>
          show (relayMapGo (match relayItemParse it with
            | some e => assocSet e.1 e.2 m | none => m) rest).Pairwise _
          simp only [hp]
          exact ih _ (assocSet_sorted e.1 e.2 m hm)

theorem find?_key_cons (a k1 : Nat) (v1 : String) (l : List (Nat × String)) :
    ((k1, v1) :: l).find? (fun x => x.1 == a)
      = if k1 = a then some (k1, v1) else l.find? (fun x => x.1 == a) := by
  by_cases h : k1 = a
  · rw [if_pos h]
    exact List.find?_cons_of_pos _ (beq_iff_eq.mpr h)
  · rw [if_neg h]
    exact List.find?_cons_of_neg _ (fun hb => h (beq_iff_eq.mp hb))

theorem find?_assocSet (k : Nat) (v : String) (a : Nat) :
    ∀ m : List (Nat × String),
    (assocSet k v m).find? (fun e => e.1 == a)
      = if k = a then some (k, v) else m.find? (fun e => e.1 == a) := by
  intro m
  induction m with
  | nil =>
      show ([(k, v)] : List (Nat × String)).find? (fun e => e.1 == a) = _
      rw [find?_key_cons]
  | cons e0 rest ih =>
      obtain ⟨k0, v0⟩ := e0
      show (assocSet k v ((k0, v0) :: rest)).find? (fun e => e.1 == a) = _
      unfold assocSet
      by_cases h1 : k < k0
      · rw [if_pos h1]
        simp only [find?_key_cons]
      · rw [if_neg h1]
        by_cases h2 : (k == k0) = true
        · rw [if_pos h2]
          have hk : k = k0 := beq_iff_eq.mp h2
          simp only [find?_key_cons]
          split_ifs <;> first | rfl | omega
        · rw [if_neg h2]
          have hkk : k ≠ k0 := fun he => h2 (beq_iff_eq.mpr he)
          simp only [find?_key_cons, ih]
          split_ifs <;> first | rfl | omega

theorem relayMapGo_find? (a : Nat) :
    ∀ (items : List JVal) (m : List (Nat × String)),
    (relayMapGo m items).find? (fun e => e.1 == a)
      = (relayLastPhy a ((m.find? (fun e => e.1 == a)).map Prod.snd) items).map
          (fun p => (a, p)) := by
  intro items
  induction items with
  | nil =>
      intro m
      show m.find? (fun e => e.1 == a)
        = ((m.find? (fun e => e.1 == a)).map Prod.snd).map (fun p => (a, p))
      cases hf : m.find? (fun e => e.1 == a) with
      | none => rfl
      | some e =>
          have hp := List.find?_some hf
          simp only [beq_iff_eq] at hp
          obtain ⟨e1, e2⟩ := e
          show some (e1, e2) = some (a, e2)
          rw [show e1 = a from hp]
  | cons it rest ih =>
      intro m
      cases hp : relayItemParse it with
      | none =>
          show (relayMapGo (match relayItemParse it with
              | some e => assocSet e.1 e.2 m | none => m) rest).find? (fun e => e.1 == a)
            = (relayLastPhy a (match relayItemParse it with
                | some e => if e.1 == a then some e.2
                            else (m.find? (fun e => e.1 == a)).map Prod.snd
                | none => (m.find? (fun e => e.1 == a)).map Prod.snd) rest).map
                (fun p => (a, p))
          simp only [hp]
          exact ih m
      | some e =>
          show (relayMapGo (match relayItemParse it with
              | some e => assocSet e.1 e.2 m | none => m) rest).find? (fun e => e.1 == a)
            = (relayLastPhy a (match relayItemParse it with
                | some e => if e.1 == a then some e.2
                            else (m.find? (fun e => e.1 == a)).map Prod.snd
                | none => (m.find? (fun e => e.1 == a)).map Prod.snd) rest).map
                (fun p => (a, p))
          simp only [hp]
          rw [ih (assocSet e.1 e.2 m), find?_assocSet]
          by_cases h : e.1 = a
          · rw [if_pos h, if_pos (beq_iff_eq.mpr h)]
            rfl
          · rw [if_neg h, if_neg (fun hb => h (beq_iff_eq.mp hb))]

theorem relaysApply_relays_filter (s : St) (nwid : Nat) (items : List JVal) :
    (relaysApply s nwid items).relays.filter (fun r => r.networkId == nwid)
      = (relayMapOf items).map (relayRowOf nwid) := by
  show ((s.relays.filter (fun r => !(r.networkId == nwid))
      ++ (relayMapOf items).map (relayRowOf nwid)).filter (fun r => r.networkId == nwid)) = _
  rw [List.filter_append]
  have h1 : (s.relays.filter (fun r => !(r.networkId == nwid))).filter
      (fun r => r.networkId == nwid) = [] :=
    List.filter_eq_nil_iff.mpr (fun r hr hp => by
      have hq := List.of_mem_filter hr
      rw [hp] at hq
      cases hq)
  have h2 : ((relayMapOf items).map (relayRowOf nwid)).filter (fun r => r.networkId == nwid)
      = (relayMapOf items).map (relayRowOf nwid) :=
    List.filter_eq_self.mpr (fun r hr => by
      obtain ⟨e, _, rfl⟩ := List.mem_map.mp hr
      simp [relayRowOf])
  rw [h1, h2, List.nil_append]

theorem netFieldStep_relays_shape (nwid : Nat) (st : St) (kv : String × JVal) :
    (netFieldStep nwid st kv).relays = st.relays ∨
    ∃ items : List JVal, netFieldStep nwid st kv = relaysApply st nwid items := by
  unfold netFieldStep
  by_cases h1 : kv.1 = "name"
  · rw [if_pos h1]
    left
    cases kv.2 with
    | jstr s =>
        dsimp only
        by_cases hl : s.length > 0
        · rw [if_pos hl]
          rfl
        · rw [if_neg hl]
    | jint i => rfl
    | jbool b => rfl
    | jarr xs => rfl
    | jobj kvs => rfl
    | jnull => rfl
  rw [if_neg h1]
  by_cases h2 : kv.1 = "private"
  · rw [if_pos h2]
    left
    cases kv.2 <;> rfl
  rw [if_neg h2]
  by_cases h3 : kv.1 = "enableBroadcast"
  · rw [if_pos h3]
    left
    cases kv.2 <;> rfl
  rw [if_neg h3]
  by_cases h4 : kv.1 = "allowPassiveBridging"
  · rw [if_pos h4]
    left
    cases kv.2 <;> rfl
  rw [if_neg h4]
  by_cases h5 : kv.1 = "v4AssignMode"
  · rw [if_pos h5]
    left
    cases kv.2 <;> rfl
  rw [if_neg h5]
  by_cases h6 : kv.1 = "v6AssignMode"
  · rw [if_pos h6]
    left
    cases kv.2 <;> rfl
  rw [if_neg h6]
  by_cases h7 : kv.1 = "multicastLimit"
  · rw [if_pos h7]
    left
    cases kv.2 <;> rfl
  rw [if_neg h7]
  by_cases h8 : kv.1 = "relays"
  · rw [if_pos h8]
    cases kv.2 with
    | jarr items => exact Or.inr ⟨items, rfl⟩
    | jstr s => exact Or.inl rfl
    | jint i => exact Or.inl rfl
    | jbool b => exact Or.inl rfl
    | jobj kvs => exact Or.inl rfl
    | jnull => exact Or.inl rfl
  rw [if_neg h8]
  by_cases h9 : kv.1 = "routes"
  · rw [if_pos h9]
    left
    cases kv.2 with
    | jarr items =>
        obtain ⟨r, hr⟩ := routesGo_shape nwid items st []
        show (routesGo nwid st [] items).relays = st.relays
        rw [hr]
    | jstr s => rfl
    | jint i => rfl
    | jbool b => rfl
    | jobj kvs => rfl
    | jnull => rfl
  rw [if_neg h9]
  by_cases h10 : kv.1 = "gateways"
  · rw [if_pos h10]
    left
    obtain ⟨g, hg⟩ := gatewaysApply_shape st nwid kv.2
    rw [hg]
  rw [if_neg h10]
  by_cases h11 : kv.1 = "ipAssignmentPools"
  · rw [if_pos h11]
    left
    cases kv.2 with
    | jarr items =>
        obtain ⟨p, hp⟩ := poolsGo_shape nwid items st []
        show (poolsGo nwid st [] items).relays = st.relays
        rw [hp]
    | jstr s => rfl
    | jint i => rfl
    | jbool b => rfl
    | jobj kvs => rfl
    | jnull => rfl
  rw [if_neg h11]
  by_cases h12 : kv.1 = "rules"
  · rw [if_pos h12]
    left
    cases kv.2 with
    | jarr items =>
        obtain ⟨r, hr⟩ := rulesApply_shape st nwid items
        show (rulesApply st nwid items).relays = st.relays
        rw [hr]
    | jstr s => rfl
    | jint i => rfl
    | jbool b => rfl
    | jobj kvs => rfl
    | jnull => rfl
  rw [if_neg h12]
  exact Or.inl rfl

theorem processFold_relays (nwid : Nat) :
    ∀ (kvs : List (String × JVal)) (s : St),
    (∃ items2 : List JVal, s.relays.filter (fun r => r.networkId == nwid)
        = (relayMapOf items2).map (relayRowOf nwid)) →
    ∃ items3 : List JVal,
      (kvs.foldl (netFieldStep nwid) s).relays.filter (fun r => r.networkId == nwid)
        = (relayMapOf items3).map (relayRowOf nwid) := by
  intro kvs
  induction kvs with
  | nil =>
      intro s h
      exact h
  | cons kv rest ih =>
      intro s h
      rw [List.foldl_cons]
      apply ih
      rcases netFieldStep_relays_shape nwid s kv with he | ⟨its, he⟩
      · rw [he]
        exact h
      · rw [he, relaysApply_relays_filter]
        exact ⟨its, rfl⟩

theorem processFold_relays_mem (nwid : Nat) :
    ∀ (kvs : List (String × JVal)) (s : St) (items : List JVal),
    ("relays", JVal.jarr items) ∈ kvs →
    ∃ items3 : List JVal,
      (kvs.foldl (netFieldStep nwid) s).relays.filter (fun r => r.networkId == nwid)
        = (relayMapOf items3).map (relayRowOf nwid) := by
  intro kvs
  induction kvs with
  | nil =>
      intro s items h
      cases h
  | cons kv rest ih =>
      intro s items h
      rw [List.foldl_cons]
      rcases List.mem_cons.mp h with he | hm
      · apply processFold_relays nwid rest
        refine ⟨items, ?_⟩
        rw [← he,
            show netFieldStep nwid s ("relays", JVal.jarr items)
              = relaysApply s nwid items from rfl,
            relaysApply_relays_filter]
      · exact ih _ items hm

theorem relayMap_rows_nodups (nwid : Nat) (items : List JVal) :
    ((relayMapOf items).map (relayRowOf nwid)).Pairwise
      (fun r1 r2 => r1.nodeId ≠ r2.nodeId) :=
  List.Pairwise.map _ (fun e1 e2 h12 => Nat.ne_of_lt h12)
    (relayMapGo_sorted items [] List.Pairwise.nil)

theorem handleNetworkPOST_relays_frame (st : St) (nwid : Nat) (kvs : List (String × JVal))
    (now : Nat) :
    ∃ st0 : St, st0.relays = st.relays ∧
      (handleNetworkPOST st nwid (some (JVal.jobj kvs)) now).2.relays
        = (kvs.foldl (netFieldStep nwid) st0).relays := by
  unfold handleNetworkPOST
  cases hfn : findNetwork st nwid with
  | some n =>
      refine ⟨st, rfl, ?_⟩
      simp only [hfn]
      rfl
  | none =>
      refine ⟨{ st with networks := st.networks ++ [freshNetwork nwid now] }, rfl, ?_⟩
      simp only [hfn]
      rfl

/-- C10: after a successful network POST whose body carries a relays array,
the stored Relay rows for the network hold at most one row per node address
(the entries are collected into an address-keyed map before insertion), and
when the array is the body's single field, the row stored for an address
carries the phyAddress of the last array entry for that address. -/
theorem C10_relay_map (st : St) (nwid : Nat) (kvs : List (String × JVal))
    (items : List JVal) (now : Nat) (hmem : ("relays", JVal.jarr items) ∈ kvs) :
    ((handleNetworkPOST st nwid (some (JVal.jobj kvs)) now).2.relays.filter
        (fun r => r.networkId == nwid)).Pairwise (fun r1 r2 => r1.nodeId ≠ r2.nodeId) ∧
    ∀ (a : Nat) (phy : String), relayLastPhy a none items = some phy →
      ((handleNetworkPOST st nwid
          (some (JVal.jobj [("relays", JVal.jarr items)])) now).2.relays.filter
            (fun r => r.networkId == nwid)).find? (fun r => r.nodeId == a)
        = some ⟨nwid, a, inetToString (inetParseT phy)⟩ := by
  constructor
  · obtain ⟨st0, h0, hpost⟩ := handleNetworkPOST_relays_frame st nwid kvs now
    rw [hpost]
    obtain ⟨its3, h3⟩ := processFold_relays_mem nwid kvs st0 items hmem
    rw [h3]
    exact relayMap_rows_nodups nwid its3
  · intro a phy hlast
    obtain ⟨s1, h1rel, _, _, _, _, e1, _, _, _, _⟩ :=
      handleNetworkPOST_single_collections st nwid "relays" (JVal.jarr items) now
    rw [e1,
        show netFieldStep nwid s1 ("relays", JVal.jarr items)
          = relaysApply s1 nwid items from rfl,
        relaysApply_relays_filter,
        List.find?_map (relayRowOf nwid) (relayMapOf items),
        show ((fun (r : RelayRow) => r.nodeId == a) ∘ relayRowOf nwid)
          = (fun (e : Nat × String) => e.1 == a) from rfl,
        show relayMapOf items = relayMapGo [] items from rfl,
        relayMapGo_find? a items [],
        show ((List.find? (fun (e : Nat × String) => e.1 == a) []).map Prod.snd)
          = (none : Option String) from rfl,
        hlast]
    rfl

/-- C10 witness: posting the address aa twice keeps a single relay row, whose
physical address comes from the later entry. -/
theorem C10_relay_map_witness :
    ((handleNetworkPOST exSt exNw
        (some (JVal.jobj [("relays", JVal.jarr exRelayItems)])) 50).2.relays.filter
          (fun r => r.networkId == exNw)).Pairwise (fun r1 r2 => r1.nodeId ≠ r2.nodeId) ∧
    ((handleNetworkPOST exSt exNw
        (some (JVal.jobj [("relays", JVal.jarr exRelayItems)])) 50).2.relays.filter
          (fun r => r.networkId == exNw)).find? (fun r => r.nodeId == 0xaa)
      = some ⟨exNw, 0xaa, inetToString (inetParseT "9.9.9.9/1")⟩ :=
  ⟨(C10_relay_map exSt exNw [("relays", JVal.jarr exRelayItems)] exRelayItems 50
      (List.Mem.head _)).1,
   (C10_relay_map exSt exNw [("relays", JVal.jarr exRelayItems)] exRelayItems 50
      (List.Mem.head _)).2 0xaa "9.9.9.9/1" rfl⟩

end ZTC
